import Mathlib

/-!
Verification of the kluster chunked-store writer and interpolation helpers
(HSTB/kluster/xarray_helpers.py) against its specification.

The zarr store is modelled as an association list of named arrays.  Array
element data is a total function over up to three integer indices (ranks 1-3
occur in the source); indices for missing trailing axes are conventionally 0.
Machine floats are modelled as exact rationals; the float NaN sentinel is a
dedicated constructor of the value type.
-/

set_option maxRecDepth 4000

namespace Kluster

/-- Element dtypes distinguished by the writer: float, int, everything else. -/
inductive Dtype where
  | dfloat
  | dint
  | dother
deriving DecidableEq

/-- Array element values.  vnan models the float no-data NaN. -/
inductive Val where
  | vfloat (q : ℚ)
  | vnan
  | vint (z : ℤ)
  | vstr (s : String)
deriving DecidableEq

/-- Numeric view of a stored value, used where the source compares stored
times numerically (time arrays hold numeric values). -/
def valQ : Val → ℚ
  | .vfloat q => q
  | .vint z => (z : ℚ)
  | _ => 0

/-- ZarrWrite._get_arr_nodatavalue: NaN for float dtypes, the int no-data
value 999 for integer dtypes, empty string otherwise (defaults of
ZarrWrite.__init__). -/
def getArrNodatavalue : Dtype → Val
  | .dfloat => .vnan
  | .dint => .vint 999
  | .dother => .vstr ""

/-- A zarr array: dtype, shape, configured fill value (None allowed, as in
my_xarr_to_zarr's create_dataset), the _ARRAY_DIMENSIONS annotation, and the
element data as a total function (axes beyond the rank read index 0). -/
structure ZArr where
  dtype : Dtype
  shape : List Nat
  fill : Option Val
  dimNames : List String
  data : Nat → Nat → Nat → Val

/-- The arrays of a zarr rootgroup, keyed by name (insertion order kept). -/
abbrev Store := List (String × ZArr)

/-- A variable of an in-memory batch (one xarray variable): declared dims,
shape, dtype and values. -/
structure BVar where
  dims : List String
  shape : List Nat
  dtype : Dtype
  data : Nat → Nat → Nat → Val

/-- An xarray Dataset to be written: variables keyed by name, in order.
This is also what _my_xarr_to_zarr_build_arraydimensions extracts from it
(name, dims, shape per variable). -/
abbrev Batch := List (String × BVar)

/-- Lookup by key in an association list (python dict/group access). -/
def lookupN {α : Type} : List (String × α) → String → Option α
  | [], _ => none
  | (k, a) :: rest, v => if k = v then some a else lookupN rest v

/-- Key-preserving value map over an association list. -/
def mapVals {α : Type} (F : String → α → α) (g : List (String × α)) :
    List (String × α) :=
  g.map fun p => (p.1, F p.1 p.2)

/-- Replace the value stored at a key, keeping order; no-op if absent. -/
def setEntry {α : Type} (g : List (String × α)) (k : String) (a : α) :
    List (String × α) :=
  mapVals (fun k2 v => if k2 = k then a else v) g

/-- The append dimension name (ZarrWrite default append_dim). -/
def appendDim : String := "time"

/-- The expand dimension name (ZarrWrite default expand_dim). -/
def expandDim : String := "beam"

/-- Numeric contents of a 1-D array (rows of the first axis). -/
def arrVals (a : ZArr) : List ℚ :=
  (List.range (a.shape.headD 0)).map fun i => valQ (a.data i 0 0)

/-- Numeric contents of a named 1-D batch variable (empty if absent). -/
def batchVals (b : Batch) (nm : String) : List ℚ :=
  match lookupN b nm with
  | some v => (List.range (v.shape.headD 0)).map fun i => valQ (v.data i 0 0)
  | none => []

/-- Bounds test of a (up to rank-3) index against a shape; missing axes
admit only index 0. -/
def inShape (shp : List Nat) (i j k : Nat) : Bool :=
  decide (i < shp.getD 0 1) && decide (j < shp.getD 1 1) && decide (k < shp.getD 2 1)

/-- Zarr array resize: data inside the old shape is kept, grown space reads
the array's configured fill value.  Shrunk space is discarded (reads are
bounded by the shape). -/
def resizeArr (a : ZArr) (newshp : List Nat) : ZArr :=
  { a with
    shape := newshp
    data := fun i j k =>
      if inShape a.shape i j k then a.data i j k else a.fill.getD (.vstr "") }

/-- Minimum of two rationals (np.minimum). -/
def minQ2 (a b : ℚ) : ℚ := if b ≤ a then b else a

/-- Maximum of two rationals (np.maximum). -/
def maxQ2 (a b : ℚ) : ℚ := if a ≤ b then b else a

/-- np.min of a list (None on empty, where numpy raises). -/
def npMinQ : List ℚ → Option ℚ
  | [] => none
  | x :: xs => some (xs.foldl minQ2 x)

/-- np.max of a list (None on empty, where numpy raises). -/
def npMaxQ : List ℚ → Option ℚ
  | [] => none
  | x :: xs => some (xs.foldl maxQ2 x)

/-- ZarrWrite._check_merge: the batch qualifies for a merge when the store
has the append-dim array and the batch's first and last time values lie
within [min, max] of the stored times (lines 167-185).  Missing pieces make
the check fail (the source would raise on empty arrays; both outcomes stop
the merge). -/
def checkMerge (g : Store) (bt : List ℚ) : Bool :=
  match lookupN g appendDim with
  | none => false
  | some ta =>
    match bt.head?, bt.getLast?, npMinQ (arrVals ta), npMaxQ (arrVals ta) with
    | some t0, some tl, some mn, some mx => decide (mn ≤ t0 ∧ tl ≤ mx)
    | _, _, _, _ => false

/-- ZarrWrite._check_fix_rootgroup_expand_dim: expand dim present in both
rootgroup and batch, and the rootgroup beam array size (zarr .size, the
element count) smaller than the batch beam length (lines 187-208). -/
def checkFixRootgroupExpandDim (g : Store) (b : Batch) : Bool :=
  match lookupN g expandDim, lookupN b expandDim with
  | some ra, some bv => decide (ra.shape.prod < bv.shape.headD 0)
  | _, _ => false

/-- ZarrWrite.fix_rootgroup_expand_dim (lines 235-261): for every array of
the rootgroup, the beam coordinate array is rebuilt as arange of the new
beam count; every array of rank at least 2 whose second axis equals the
current beam size is inflated (ZarrWrite._inflate_expand_dim, lines
263-285): old columns kept, new columns filled with the dtype's no-data
value (np.full + concatenate on axis 1); each is then resized and fully
overwritten.  Other arrays are untouched. -/
def fixRootgroupExpandDim (g : Store) (b : Batch) : Store :=
  match lookupN g expandDim, lookupN b expandDim with
  | some beamArr, some bv =>
    let curr := beamArr.shape.prod
    let newB := bv.shape.headD 0
    mapVals (fun nm a =>
      if nm = expandDim then
        { dtype := a.dtype, fill := a.fill, dimNames := a.dimNames,
          shape := bv.shape,
          data := fun i _ _ => .vint i }
      else if 2 ≤ a.shape.length ∧ a.shape.getD 1 0 = curr then
        { dtype := a.dtype, fill := a.fill, dimNames := a.dimNames,
          shape := a.shape.set 1 newB,
          data := fun i j k =>
            if j < a.shape.getD 1 0 then a.data i j k
            else getArrNodatavalue a.dtype }
      else a) g
  | _, _ => g

/-- ZarrWrite.correct_rootgroup_dims (lines 287-298). -/
def correctRootgroupDims (g : Store) (b : Batch) : Store :=
  if checkFixRootgroupExpandDim g b then fixRootgroupExpandDim g b else g

/-- Index of the first occurrence of an element (python list.index).  The
source never calls it on a missing element without a guard; 0 there. -/
def firstIdx {α : Type} [DecidableEq α] : List α → α → Nat
  | [], _ => 0
  | y :: ys, x => if y = x then 0 else firstIdx ys x + 1

/-- ZarrWrite._write_determine_shape (lines 322-355).  Returns (timaxis,
timlength, startingshp).  startingshp entries are Option Nat because a None
finalsize flows into the tuple in the source.  Note the source locates the
time axis inside the shape tuple by value (shape.index(x)), reproduced here
with firstIdx. -/
def writeDetermineShape (var : String) (v : BVar) (finalsize : Option Nat) :
    Except String (Option Nat × Nat × List (Option Nat)) :=
  if var = "beam" ∨ var = "xyz" then
    .ok (none, 0, v.shape.map some)
  else if appendDim ∈ v.dims then
    let timaxis := firstIdx v.dims appendDim
    let timlength := v.shape.getD timaxis 0
    .ok (some timaxis, timlength,
      v.shape.map fun x => if firstIdx v.shape x = timaxis then finalsize else some x)
  else .error "ValueError: append dim is not among the variable dims"

/-- ZarrWrite._write_adjust_max_beams (lines 300-320): a shape of rank at
least 2 gets its second entry replaced by the current length of the beam
array (KeyError if the rootgroup has no beam array). -/
def writeAdjustMaxBeams (g : Store) (shp : List (Option Nat)) :
    Except String (List (Option Nat)) :=
  if 2 ≤ shp.length then
    match lookupN g "beam" with
    | some ba => .ok (shp.set 1 (some (ba.shape.headD 0)))
    | none => .error "KeyError: beam"
  else .ok shp

/-- Conversion of a maybe-None shape tuple to concrete sizes; a None entry
is the TypeError zarr raises when resizing with None. -/
def allSomeShape : List (Option Nat) → Except String (List Nat)
  | [] => .ok []
  | some x :: rest => do
    let r ← allSomeShape rest
    .ok (x :: r)
  | none :: _ => .error "TypeError: an integer is required"

/-- Resize the named array of the store. -/
def resizeInStore (g : Store) (var : String) (shpN : List Nat) :
    Except String Store :=
  match lookupN g var with
  | some a => .ok (setEntry g var (resizeArr a shpN))
  | none => .error "KeyError: array not in rootgroup"

/-- Per-axis slice bounds of the chunk_idx tuple; axes beyond the given
slices admit only index 0 (rank convention). -/
def sliceAt (slices : List (Nat × Nat)) (p : Nat) : Nat × Nat :=
  slices.getD p (0, 1)

/-- Membership of an index in the slice of one axis. -/
def inSl (slices : List (Nat × Nat)) (p : Nat) (x : Nat) : Bool :=
  decide ((sliceAt slices p).1 ≤ x) && decide (x < (sliceAt slices p).2)

/-- Region assignment rootgroup[var][chunk_idx] = newarr: positions inside
every axis slice take the source value at slice-relative offsets, the rest
keep the old data. -/
def writeRegion (a : ZArr) (slices : List (Nat × Nat)) (src : Nat → Nat → Nat → Val) :
    ZArr :=
  { a with
    data := fun i j k =>
      if inSl slices 0 i && inSl slices 1 j && inSl slices 2 k then
        src (i - (sliceAt slices 0).1) (j - (sliceAt slices 1).1) (k - (sliceAt slices 2).1)
      else a.data i j k }

/-- Every axis slice must end within the array shape (zarr/numpy reject the
assignment otherwise). -/
def slicesInBounds (slices : List (Nat × Nat)) (shp : List Nat) : Bool :=
  (slices.zip shp).all fun sd => decide (sd.1.2 ≤ sd.2)

/-- Checked region assignment into the named array of the store. -/
def writeSlices (g : Store) (var : String) (slices : List (Nat × Nat))
    (src : Nat → Nat → Nat → Val) : Except String Store :=
  match lookupN g var with
  | some a =>
    if slicesInBounds slices a.shape then .ok (setEntry g var (writeRegion a slices src))
    else .error "ValueError: destination slice exceeds array shape"
  | none => .error "KeyError: array not in rootgroup"

/-- ZarrWrite._write_existing_rootgroup (lines 357-398): shorten the data
location when the batch time length differs from it, build the chunk_idx
slices (time axis gets the data location, every other axis the slice
0..size, located by value with shape.index), resize to the adjusted
startingshp when one is given and the variable is not tx, then assign the
batch values into the region.  Chunk layout arguments only affect on-disk
chunking and are not represented. -/
def writeExistingRootgroup (g : Store) (dataloc : Nat × Nat) (var : String)
    (v : BVar) (timlength : Nat) (timaxis : Option Nat)
    (startingshp : Option (List (Option Nat))) : Except String Store :=
  let dlEnd := if timlength ≠ dataloc.2 - dataloc.1 then dataloc.1 + timlength else dataloc.2
  let slices := v.shape.map fun s =>
    if some (firstIdx v.shape s) = timaxis then (dataloc.1, dlEnd) else (0, s)
  (match startingshp with
    | some shp =>
      if var ≠ "tx" then
        writeAdjustMaxBeams g shp >>= fun shp2 =>
        allSomeShape shp2 >>= fun shpN =>
        resizeInStore g var shpN
      else .ok g
    | none => .ok g) >>= fun g2 =>
  writeSlices g2 var slices v.data

/-- ZarrWrite._write_new_dataset_rootgroup (lines 400-422): create the
array with the batch shape and the dtype's no-data fill, assign the batch
values, then resize to startingshp. -/
def writeNewDatasetRootgroup (g : Store) (var : String) (v : BVar)
    (startingshp : List (Option Nat)) : Except String Store :=
  let a0 : ZArr :=
    { dtype := v.dtype, shape := v.shape, fill := some (getArrNodatavalue v.dtype),
      dimNames := [], data := v.data }
  allSomeShape startingshp >>= fun shpN =>
  .ok (g ++ [(var, resizeArr a0 shpN)])

/-- Stamp the _ARRAY_DIMENSIONS annotation of the named array. -/
def stampDims (g : Store) (var : String) (dims : List String) : Store :=
  mapVals (fun k2 a => if k2 = var then { a with dimNames := dims } else a) g

/-- One iteration of the variable loop of ZarrWrite.write_to_zarr (lines
454-481): skip time/beam on merge, skip already-written beam/xyz, determine
shape, write into the existing array (with resize only when finalsize was
given) or create a new one, then stamp the dims annotation. -/
def writeVarStep (names : List String) (dataloc : Nat × Nat)
    (finalsize : Option Nat) (merge : Bool) (g : Store) (kv : String × BVar) :
    Except String Store :=
  if merge ∧ (kv.1 = appendDim ∨ kv.1 = "beam") then .ok g
  else if (kv.1 = "beam" ∨ kv.1 = "xyz") ∧ kv.1 ∈ names then .ok g
  else
    writeDetermineShape kv.1 kv.2 finalsize >>= fun tts =>
    (if kv.1 ∈ names then
      if finalsize.isSome then
        writeExistingRootgroup g dataloc kv.1 kv.2 tts.2.1 tts.1 (some tts.2.2)
      else
        writeExistingRootgroup g dataloc kv.1 kv.2 tts.2.1 tts.1 none
    else writeNewDatasetRootgroup g kv.1 kv.2 tts.2.2) >>= fun g2 =>
    .ok (stampDims g2 kv.1 kv.2.dims)

/-- The error message of the merge check of write_to_zarr (line 447). -/
def mergeErrorMsg : String :=
  "ValueError: write_to_zarr Unable to merge, time not found in existing data store"

/-- ZarrWrite.write_to_zarr (lines 424-481): raise when a merge fails the
merge check, otherwise correct the expand dim when finalsize is given,
refresh the array-name list, and run the variable loop.  Attribute writing
(write_attributes, line 452) touches only rootgroup attributes, which are
outside this array-store model. -/
def writeToZarr (g : Store) (batch : Batch) (dataloc : Nat × Nat)
    (finalsize : Option Nat) (merge : Bool) : Except String Store :=
  if merge && !(checkMerge g (batchVals batch appendDim)) then
    .error mergeErrorMsg
  else
    let g1 := if finalsize.isSome then correctRootgroupDims g batch else g
    let names := g1.map Prod.fst
    batch.foldlM (writeVarStep names dataloc finalsize merge) g1

/-- Attribute values as combine_xr_attributes and the zarr attribute writer
see them.  JSON strings holding installation and runtime parameter objects
are modelled in parsed form: the two special fields the source pops
(raw_file_name / survey_identifier, resp. Counter / MinDepth / MaxDepth)
plus the serialization of the remaining object, with equal serializations
exactly when the remaining objects are equal.  Numbers are the numpy
scalars the converters produce (they support tolist).  andarr is a numpy
array, the two list constructors are python lists, adict a flat JSON
object. -/
inductive AttV where
  | astr (s : String)
  | anum (q : ℚ)
  | andarr (l : List ℚ)
  | anumlist (l : List ℚ)
  | astrlist (l : List String)
  | adict (d : List (String × String))
  | ainstall (rawFileName surveyIdent : Option String) (rest : String)
  | aruntime (counter minDepth maxDepth : Option String) (rest : String)
deriving DecidableEq

/-- Python dict assignment: replace in place when the key exists, append
otherwise (insertion order preserved). -/
def dictSet {α : Type} (d : List (String × α)) (k : String) (v : α) :
    List (String × α) :=
  if (lookupN d k).isSome then setEntry d k v else d ++ [(k, v)]

/-- Numpy .tolist of an attribute value: arrays become python lists, numpy
scalars become plain scalars, anything else lacks the attribute. -/
def attrTolist : AttV → Except String AttV
  | .andarr l => .ok (.anumlist l)
  | .anum q => .ok (.anum q)
  | _ => .error "AttributeError: object has no attribute tolist"

/-- Sorted-unique list of strings: np.unique sorts its input and removes
duplicates (python sorted is the same code-point order as the String
order). -/
def npUniqueStr (l : List String) : List String :=
  (l.insertionSort (· ≤ ·)).dedup

/-- State threaded through the attribute loop of combine_xr_attributes:
the accumulating result dict, the two dedup buffers, the raw file names,
the survey identifiers and the deferred sound-velocity casts. -/
structure CombineState where
  finaldict : List (String × AttV)
  bufferedSettings : String
  bufferedRuntime : String
  fnames : List String
  surveyNums : List String
  castDump : List (String × AttV)

/-- Initial combine state. -/
def combineInit : CombineState :=
  { finaldict := [], bufferedSettings := "", bufferedRuntime := "",
    fnames := [], surveyNums := [], castDump := [] }

/-- One key/value step of combine_xr_attributes (lines 773-863), with the
branch order of the source: install-prefixed keys, runtime-prefixed keys,
serial numbers already present, profile-prefixed keys, min/max-prefixed
keys, then first-writer-wins for everything else.  The install branch pops
raw_file_name and survey_identifier into the running lists and keeps the
re-serialized remainder unless it equals the first-seen value; the runtime
branch likewise with Counter restored on the kept record (an absent Counter
is restored as the empty string).  Comparing a stored multi-element serial
array against a scalar is the ambiguous-truth ValueError of numpy. -/
def combineStep (st : CombineState) (kv : String × AttV) :
    Except String CombineState :=
  if kv.1.take 7 = "install" then
    match kv.2 with
    | .ainstall rfn si rest =>
      let fnames := match rfn with
        | some f => if f ∈ st.fnames then st.fnames else st.fnames ++ [f]
        | none => st.fnames
      let snums := match si with
        | some s => if s ∈ st.surveyNums then st.surveyNums else st.surveyNums ++ [s]
        | none => st.surveyNums
      if rest = st.bufferedSettings then
        .ok { st with fnames := fnames, surveyNums := snums }
      else if st.bufferedSettings = "" then
        .ok { st with
              fnames := fnames
              surveyNums := snums
              bufferedSettings := rest
              finaldict := dictSet st.finaldict kv.1 (.astr rest) }
      else
        .ok { st with
              fnames := fnames
              surveyNums := snums
              finaldict := dictSet st.finaldict kv.1 (.astr rest) }
    | _ => .error "TypeError: install attribute is not a JSON string"
  else if kv.1.take 7 = "runtime" then
    match kv.2 with
    | .aruntime counter mind maxd rest =>
      if rest = st.bufferedRuntime then .ok st
      else if st.bufferedRuntime = "" then
        .ok { st with
              bufferedRuntime := rest
              finaldict := dictSet st.finaldict kv.1
                (.aruntime (some (counter.getD "")) mind maxd rest) }
      else
        .ok { st with
              finaldict := dictSet st.finaldict kv.1
                (.aruntime (some (counter.getD "")) mind maxd rest) }
    | _ => .error "TypeError: runtime attribute is not a JSON string"
  else if (kv.1 = "system_serial_number" ∨ kv.1 = "secondary_system_serial_number")
      ∧ (lookupN st.finaldict kv.1).isSome then
    match lookupN st.finaldict kv.1, kv.2 with
    | some (.andarr l), .anum q =>
      if 2 ≤ l.length then .error "ValueError: truth value of an array is ambiguous"
      else if l = [q] then .ok st
      else .ok { st with finaldict := dictSet st.finaldict kv.1 (.andarr (l ++ [q])) }
    | some (.anum q0), .anum q =>
      if q0 = q then .ok st
      else .ok { st with finaldict := dictSet st.finaldict kv.1 (.andarr [q0, q]) }
    | _, _ => .error "TypeError: serial number is not numeric"
  else if kv.1.take 7 = "profile" then
    .ok { st with castDump := dictSet st.castDump kv.1 kv.2 }
  else if kv.1.take 3 = "min" then
    match lookupN st.finaldict kv.1 with
    | some (.anum a) =>
      match kv.2 with
      | .anum b => .ok { st with finaldict := dictSet st.finaldict kv.1 (.anum (min b a)) }
      | _ => .error "TypeError: min attribute is not numeric"
    | some _ => .error "TypeError: min attribute is not numeric"
    | none => .ok { st with finaldict := dictSet st.finaldict kv.1 kv.2 }
  else if kv.1.take 3 = "max" then
    match lookupN st.finaldict kv.1 with
    | some (.anum a) =>
      match kv.2 with
      | .anum b => .ok { st with finaldict := dictSet st.finaldict kv.1 (.anum (max b a)) }
      | _ => .error "TypeError: max attribute is not numeric"
    | some _ => .error "TypeError: max attribute is not numeric"
    | none => .ok { st with finaldict := dictSet st.finaldict kv.1 kv.2 }
  else if (lookupN st.finaldict kv.1).isNone then
    .ok { st with finaldict := dictSet st.finaldict kv.1 kv.2 }
  else .ok st

/-- The unique-cast pass at the end of combine_xr_attributes (lines
871-877): iterate the cast keys in sorted order, keep the first occurrence
of each distinct cast value. -/
def castFold (fd : List (String × AttV)) (cd : List (String × AttV)) :
    List (String × AttV) :=
  (((cd.map Prod.fst).insertionSort (· ≤ ·)).foldl
    (fun p k =>
      match lookupN cd k with
      | some v => if v ∈ p.2 then p else (dictSet p.1 k v, p.2 ++ [v])
      | none => p)
    (fd, [])).1

/-- combine_xr_attributes (lines 738-878): fold every attribute pair of
every dataset through combineStep, then, when file names were collected,
run tolist on the two serial-number entries (KeyError when absent) and set
multibeam_files to the sorted unique file names; set survey_number when
identifiers were collected; finally fold in the unique casts. -/
def combineXrAttributes (dicts : List (List (String × AttV))) :
    Except String (List (String × AttV)) :=
  (dicts.map id).flatten.foldlM combineStep combineInit >>= fun st =>
  (if st.fnames ≠ [] then
    (match lookupN st.finaldict "system_serial_number" with
      | some v => attrTolist v
      | none => Except.error "KeyError: system_serial_number") >>= fun s1 =>
    let fd1 := dictSet st.finaldict "system_serial_number" s1
    (match lookupN fd1 "secondary_system_serial_number" with
      | some v => attrTolist v
      | none => Except.error "KeyError: secondary_system_serial_number") >>= fun s2 =>
    let fd2 := dictSet fd1 "secondary_system_serial_number" s2
    .ok (dictSet fd2 "multibeam_files" (.astrlist (npUniqueStr st.fnames)))
  else .ok st.finaldict) >>= fun fd =>
  let fd3 := if st.surveyNums ≠ [] then
      dictSet fd "survey_number" (.astrlist (npUniqueStr st.surveyNums))
    else fd
  .ok (castFold fd3 st.castDump)

/-- validate_merge (lines 922-944): when both the dataset and the store
have a time array, the first dataset time must be contained in the stored
times; in every other case the merge is declared good. -/
def validateMerge (b : Batch) (arrs : Store) : Bool :=
  if (lookupN b "time").isSome && (lookupN arrs "time").isSome then
    match (batchVals b "time").head?, lookupN arrs "time" with
    | some t0, some ta => decide (t0 ∈ arrVals ta)
    | _, _ => false
  else true

/-- Element-wise equality of a batch variable against a stored array
(np.array_equal: same shape, same elements). -/
def arrayEqualB (v : BVar) (a : ZArr) : Bool :=
  v.shape == a.shape &&
  ((List.range (a.shape.getD 0 1)).all fun i =>
    (List.range (a.shape.getD 1 1)).all fun j =>
      (List.range (a.shape.getD 2 1)).all fun k => v.data i j k == a.data i j k)

/-- A zarr array made from batch values by plain group assignment
(rootgroup[var] = values). -/
def mkArrOfBVar (v : BVar) : ZArr :=
  { dtype := v.dtype, shape := v.shape, fill := none, dimNames := [], data := v.data }

/-- One iteration of the variable loop of my_xarr_to_zarr (lines
1018-1072): skip time/beam/sector on merge; static coords sector/beam/xyz
are written once and must be equal afterwards; other variables are either
assigned into the existing array at the data location (the commented-out
resize of the source is likewise absent here) or created with fill None and
resized to the final size (the time axis located by value, like the
source's shape.index).  The dims annotation is stamped at the end.
override_chunk_size only affects on-disk chunk layout. -/
def myXarrStep (existing : List String) (dataloc : Nat × Nat)
    (finalsize : Option Nat) (merge : Bool) (arrs : Store) (kv : String × BVar) :
    Except String Store :=
  if merge ∧ kv.1 ∈ (["time", "beam", "sector"] : List String) then .ok arrs
  else do
    let arrs2 ←
      if kv.1 ∈ (["sector", "beam", "xyz"] : List String) then
        if kv.1 ∈ existing then
          match lookupN arrs kv.1 with
          | some a =>
            if arrayEqualB kv.2 a then Except.ok arrs
            else Except.error "ValueError: Found inconsistent dimension"
          | none => Except.error "KeyError: array not in rootgroup"
        else Except.ok (arrs ++ [(kv.1, mkArrOfBVar kv.2)])
      else
        if appendDim ∈ kv.2.dims then do
          let timlength := kv.2.shape.getD (firstIdx kv.2.dims appendDim) 0
          let timaxis := firstIdx kv.2.shape timlength
          if kv.1 ∈ existing then
            let dlEnd := if timlength ≠ dataloc.2 - dataloc.1 then dataloc.1 + timlength
              else dataloc.2
            let slices := kv.2.shape.map fun s =>
              if firstIdx kv.2.shape s = timaxis then (dataloc.1, dlEnd) else (0, s)
            writeSlices arrs kv.1 slices kv.2.data
          else do
            let shpN ← allSomeShape (kv.2.shape.map fun x =>
              if firstIdx kv.2.shape x = timaxis then finalsize else some x)
            Except.ok (arrs ++ [(kv.1, resizeArr (mkArrOfBVar kv.2) shpN)])
        else Except.error "KeyError: time"
    .ok (stampDims arrs2 kv.1 kv.2.dims)

/-- A zarr group as my_xarr_to_zarr sees it: arrays plus group attributes. -/
structure GroupState where
  arrs : Store
  attrs : List (String × AttV)

/-- Shallow dict.update on string dictionaries (existing keys replaced in
place, new keys appended). -/
def dictUpdateStr (d1 d2 : List (String × String)) : List (String × String) :=
  d2.foldl (fun d p => dictSet d p.1 p.2) d1

/-- One attribute of _my_xarr_to_zarr_writeattributes (lines 690-710):
ndarrays are converted with tolist first; an absent key is set; for a list
value the source appends the whole new list to a transient copy of the
stored attribute (zarr attrs getitem), which is never flushed back, so the
stored attribute is unchanged; a dict value updates the stored dict (an
AttributeError when the stored value is not a dict); anything else
overwrites. -/
def writeAttributeStep (r : List (String × AttV)) (kv : String × AttV) :
    Except String (List (String × AttV)) :=
  let v := match kv.2 with
    | .andarr l => AttV.anumlist l
    | w => w
  match lookupN r kv.1 with
  | none => .ok (dictSet r kv.1 v)
  | some cur =>
    match v with
    | .anumlist _ => .ok r
    | .astrlist _ => .ok r
    | .adict d2 =>
      match cur with
      | .adict d1 => .ok (dictSet r kv.1 (.adict (dictUpdateStr d1 d2)))
      | _ => .error "AttributeError: object has no attribute update"
    | _ => .ok (dictSet r kv.1 v)

/-- _my_xarr_to_zarr_writeattributes over an optional attribute dict. -/
def myXarrWriteAttributes (root : List (String × AttV))
    (attrs : Option (List (String × AttV))) : Except String (List (String × AttV)) :=
  match attrs with
  | none => .ok root
  | some l => l.foldlM writeAttributeStep root

/-- my_xarr_to_zarr (lines 968-1073): on a failed merge validation return
None with the group untouched; otherwise record the existing array names,
write the attributes, run the variable loop and return the output path
(modelled as some unit). -/
def myXarrToZarr (g : GroupState) (batch : Batch)
    (attrs : Option (List (String × AttV))) (dataloc : Nat × Nat)
    (finalsize : Option Nat) (merge : Bool) :
    Except String (Option Unit × GroupState) :=
  if merge && !(validateMerge batch g.arrs) then .ok (none, g)
  else do
    let existing := g.arrs.map Prod.fst
    let newAttrs ← myXarrWriteAttributes g.attrs attrs
    let arrs ← batch.foldlM (myXarrStep existing dataloc finalsize merge) g.arrs
    .ok (some (), { arrs := arrs, attrs := newAttrs })

/-- Floored modulus on rationals (python/numpy % with a positive modulus
lands in [0, b)). -/
def qmod (a b : ℚ) : ℚ := a - b * ⌊a / b⌋

/-- Binary search loop of np.searchsorted with side left: first position of
the sorted haystack whose value is not below the needle.  On an unsorted
haystack it performs exactly this binary search, as numpy does. -/
def bsLoop (a : List ℚ) (v : ℚ) (lo hi : Nat) : Nat :=
  if h : lo < hi then
    let mid := (lo + hi) / 2
    if a.getD mid 0 < v then bsLoop a v (mid + 1) hi else bsLoop a v lo mid
  else lo
termination_by hi - lo
decreasing_by
  · omega
  · omega

/-- np.searchsorted(a, v) with the default left side. -/
def npSearchsorted (a : List ℚ) (v : ℚ) : Nat :=
  bsLoop a v 0 a.length

/-- Linear interpolation with extrapolation, as scipy interp1d evaluates a
point: the segment index is searchsorted clipped to [1, n-1], the value the
line through the two segment points.  (scipy needs at least two points; the
division-by-zero junk of shorter inputs is never relied on.) -/
def lininterp (ts vs : List ℚ) (t : ℚ) : ℚ :=
  let j := min (max (npSearchsorted ts t) 1) (ts.length - 1)
  let x0 := ts.getD (j - 1) 0
  let x1 := ts.getD j 0
  let y0 := vs.getD (j - 1) 0
  let y1 := vs.getD j 0
  y0 + (t - x0) * (y1 - y0) / (x1 - x0)

/-- Phase correction of np.unwrap for one consecutive difference, in
degrees (discont 180): differences under 180 in absolute value need no
correction, otherwise the difference is wrapped into [-180, 180] (with the
boundary fixed to +180 for positive differences) and the correction is the
wrapped difference minus the difference. -/
def wrapCorrect (d : ℚ) : ℚ :=
  let ddmod := qmod (d + 180) 360 - 180
  let ddmod := if ddmod = -180 ∧ 0 < d then 180 else ddmod
  if |d| < 180 then 0 else ddmod - d

/-- Tail recursion of unwrapDeg: previous sample and accumulated
correction. -/
def unwrapGo (prev acc : ℚ) : List ℚ → List ℚ
  | [] => []
  | x :: xs =>
    let c := acc + wrapCorrect (x - prev)
    (x + c) :: unwrapGo x c xs

/-- Degree variant of np.rad2deg(np.unwrap(np.deg2rad(x))): in exact
arithmetic the radian round trip is the identity, so the unwrap acts
directly in degrees, adding the accumulated corrections (the float32 cast
of the source is not representable in exact arithmetic). -/
def unwrapDeg : List ℚ → List ℚ
  | [] => []
  | x :: xs => x :: unwrapGo x 0 xs

/-- Running sums of chunk lengths (np.cumsum). -/
def cumsums (s : Nat) : List Nat → List Nat
  | [] => []
  | x :: xs => (s + x) :: cumsums (s + x) xs

/-- Python slice l[a:b] for nonnegative bounds (clamping, empty when the
bounds cross). -/
def pySlice {α : Type} (l : List α) (a b : Nat) : List α :=
  (l.drop a).take (b - a)

/-- np.split(l, idxs) with the final piece dropped, as in
_interp_across_chunks_construct_times (line 1179): pieces l[0:i1], l[i1:i2],
and so on. -/
def npSplitDrop (l : List ℚ) (idxs : List Nat) : List (List ℚ) :=
  (idxs.foldl (fun p i => (p.1 ++ [pySlice l p.2 i], i)) ([], 0)).1

/-- interp_across_chunks for a one-dimensional DataArray (lines 1238-1294)
together with _interp_across_chunks_construct_times (lines 1139-1191) and
_interp_across_chunks_xarrayinterp (lines 1113-1136).  The source series is
given by its times, its values and its dask chunk lengths (an unchunked
array is chunked once, into a single chunk).  A heading array is unwrapped
before and taken mod 360 after.  The last chunk end time is replaced by the
last target time plus one; the targets are split at the chunk end times by
searchsorted; empty pieces and their chunks are dropped; each retained
chunk interpolates its piece (linear, extrapolating); the concatenation is
returned provided the final length assertion holds (the source also raises
when every piece is empty, at the empty concat). -/
def interpAcrossChunks (name : String) (stimes svals : List ℚ)
    (chunkLens : List Nat) (newTimes : List ℚ) : Except String (List ℚ) :=
  let svals2 := if name = "heading" then unwrapDeg svals else svals
  match newTimes.getLast? with
  | none => .error "IndexError: new_times is empty"
  | some lastT =>
    let bounds := cumsums 0 chunkLens
    let chnkEnd := bounds.map fun c => c - 1
    let chnkEndTime := ((chnkEnd.map fun i => stimes.getD i 0).dropLast) ++ [lastT + 1]
    let endtimeIdx := chnkEndTime.map (npSearchsorted newTimes)
    let chnkIdxs := (List.zip (0 :: bounds) bounds)
    let kept := (chnkIdxs.zip (npSplitDrop newTimes endtimeIdx)).filter
      fun p => !p.2.isEmpty
    let res := (kept.map fun p =>
      p.2.map (lininterp (pySlice stimes p.1.1 p.1.2) (pySlice svals2 p.1.1 p.1.2))).flatten
    let res := if name = "heading" then res.map (fun q => qmod q 360) else res
    if res.length = newTimes.length then .ok res
    else .error "AssertionError: Input/Output shape is not equal"

/-- Minimum of a series of times (callers guarantee nonempty data; 0 is a
junk default). -/
def xrMin (l : List ℚ) : ℚ := (npMinQ l).getD 0

/-- Maximum of a series of times. -/
def xrMax (l : List ℚ) : ℚ := (npMaxQ l).getD 0

/-- Gap list of a time series: pairs of consecutive samples whose
difference exceeds the threshold (np.argwhere(diff > max_gap) followed by
the pair construction of lines 1599-1604). -/
def gapsOf (times : List ℚ) (maxGap : ℚ) : List (ℚ × ℚ) :=
  (List.range (times.length - 1)).filterMap fun i =>
    if maxGap < times.getD (i + 1) 0 - times.getD i 0 then
      some (times.getD i 0, times.getD (i + 1) 0)
    else none

/-- _find_gaps_split (lines 1542-1576): each data gap is split around the
first existing gap it fully contains (both endpoints inside, inclusive);
gaps containing none are kept whole. -/
def findGapsSplit (dg ex : List (ℚ × ℚ)) : List (ℚ × ℚ) :=
  (dg.map fun d =>
    match ex.find? (fun e =>
        decide (d.1 ≤ e.1) && decide (e.1 ≤ d.2) && decide (d.1 ≤ e.2) && decide (e.2 ≤ d.2)) with
    | some e => [(d.1, e.1), (e.2, d.2)]
    | none => [d]).flatten

/-- The while loop of compare_and_find_gaps (lines 1613-1619): split until
a pass changes nothing.  The fuel bounds the iterations; it suffices for
every terminating run of the source used here (the source itself loops
without bound). -/
def splitUntilStable (fuel : Nat) (dg ex : List (ℚ × ℚ)) : List (ℚ × ℚ) :=
  match fuel with
  | 0 => dg
  | fuel + 1 =>
    let dg2 := findGapsSplit dg ex
    if dg2 = dg then dg else splitUntilStable fuel dg2 ex

/-- The trim pass of compare_and_find_gaps over one data gap (lines
1623-1633): for each existing gap in turn, a fully contained data gap is
left alone (the continue of the source only skips the trim checks), a left
overlap moves the start to the existing end, otherwise a right overlap
moves the end to the existing start.  The (possibly updated) gap is always
appended afterwards. -/
def trimGap (ex : List (ℚ × ℚ)) (d : ℚ × ℚ) : ℚ × ℚ :=
  ex.foldl (fun d e =>
    if e.1 ≤ d.1 ∧ d.1 ≤ e.2 ∧ e.1 ≤ d.2 ∧ d.2 ≤ e.2 then d
    else if e.1 < d.1 ∧ d.1 < e.2 then (e.2, d.2)
    else if e.1 < d.2 ∧ d.2 < e.2 then (d.1, e.1)
    else d) d

/-- compare_and_find_gaps (lines 1579-1635): gaps of both series; when the
new data starts more than max_gap after the source start the code calls
list.insert with a single argument, a TypeError; a trailing gap is appended
when the new data ends early; the splitting loop runs to a fixpoint and the
trim pass builds the result. -/
def compareAndFindGaps (sourceTimes newTimes : List ℚ) (maxGap : ℚ) :
    Except String (List (ℚ × ℚ)) :=
  let existing := gapsOf sourceTimes maxGap
  let datagaps := gapsOf newTimes maxGap
  if xrMin sourceTimes + maxGap < xrMin newTimes then
    .error "TypeError: insert expected 2 arguments, got 1"
  else
    let datagaps := if xrMax newTimes + maxGap < xrMax sourceTimes then
        datagaps ++ [(xrMax newTimes, xrMax sourceTimes)]
      else datagaps
    let split := splitUntilStable ((datagaps.length + 1) * (existing.length + 1))
      datagaps existing
    .ok (split.map (trimGap existing))

/-- Row-major index list of the non-NaN positions of a (time, beam) array,
np.where(~np.isnan(A)) of stack_nan_array (line 1349); a none entry models
NaN. -/
def stackIndices (n m : Nat) (A : Nat → Nat → Option ℚ) : List (Nat × Nat) :=
  ((List.range n).map fun i =>
    (List.range m).filterMap fun j =>
      if (A i j).isSome then some (i, j) else none).flatten

/-- Row-major values of the non-NaN positions: the stacked DataArray of
stack_nan_array (lines 1350-1352), flattened in the same row-major order
and filtered to the non-NaN entries. -/
def stackValues (n m : Nat) (A : Nat → Nat → Option ℚ) : List ℚ :=
  ((List.range n).map fun i => (List.range m).filterMap fun j => A i j).flatten

/-- reform_nan_array (lines 1416-1440): allocate a NaN-filled array of the
original shape and scatter the flattened values at the original indices
(numpy fancy assignment: the last write at a repeated index wins). -/
def reformNanArray (flat : List ℚ) (idx : List (Nat × Nat)) :
    Nat → Nat → Option ℚ :=
  (idx.zip flat).foldl
    (fun f pv => fun i j => if (i, j) = pv.1 then some pv.2 else f i j)
    (fun _ _ => none)

/-! Concrete example stores and batches used by the witnesses and
counterexamples. -/

/-- A beam coordinate array of length 2. -/
def exBeamArr : ZArr :=
  { dtype := .dint, shape := [2], fill := some (.vint 999), dimNames := ["beam"],
    data := fun i _ _ => .vint i }

/-- A float (time, beam) array of shape (3, 2). -/
def exBeamwiseArr : ZArr :=
  { dtype := .dfloat, shape := [3, 2], fill := some .vnan,
    dimNames := ["time", "beam"],
    data := fun i j _ => .vfloat (10 * i + j) }

/-- A store with a beam of length 2 and one beamwise array. -/
def exStoreC1 : Store := [("beam", exBeamArr), ("x", exBeamwiseArr)]

/-- A batch whose beam coordinate has length 4. -/
def exBatchC1 : Batch :=
  [("beam", { dims := ["beam"], shape := [4], dtype := .dint,
              data := fun i _ _ => .vint i })]

/-- A time array holding the values 0 and 10. -/
def exTimeArrC2 : ZArr :=
  { dtype := .dfloat, shape := [2], fill := some .vnan, dimNames := ["time"],
    data := fun i _ _ => if i = 0 then .vfloat 0 else .vfloat 10 }

/-- A store holding only the time array with values 0 and 10. -/
def exStoreC2 : Store := [("time", exTimeArrC2)]

/-- A merge batch whose single time value 5 lies inside the stored range
but equals no stored time. -/
def exBatchC2 : Batch :=
  [("time", { dims := ["time"], shape := [1], dtype := .dfloat,
              data := fun _ _ _ => .vfloat 5 }),
   ("newvar", { dims := ["time"], shape := [1], dtype := .dfloat,
                data := fun _ _ _ => .vfloat 7 })]

/-- A merge batch whose single time value -1 lies below the stored range. -/
def exBatchC2bad : Batch :=
  [("time", { dims := ["time"], shape := [1], dtype := .dfloat,
              data := fun _ _ _ => .vfloat (-1) }),
   ("newvar", { dims := ["time"], shape := [1], dtype := .dfloat,
                data := fun _ _ _ => .vfloat 7 })]

/-- A float time array of length 2 holding 0 and 1. -/
def exTimeArrC3 : ZArr :=
  { dtype := .dfloat, shape := [2], fill := some .vnan, dimNames := ["time"],
    data := fun i _ _ => if i = 0 then .vfloat 0 else .vfloat 1 }

/-- A float data array of length 2 (the pre-existing array the claim says
must be resized). -/
def exDataArrC3 : ZArr :=
  { dtype := .dfloat, shape := [2], fill := some .vnan, dimNames := ["time"],
    data := fun _ _ _ => .vfloat 4 }

/-- A store with a time array and a further array x, both of length 2. -/
def exStoreC3 : Store := [("time", exTimeArrC3), ("x", exDataArrC3)]

/-- A first-task batch carrying only the time variable (one new row),
written at rows 2..3 with final size 3. -/
def exBatchC3 : Batch :=
  [("time", { dims := ["time"], shape := [1], dtype := .dfloat,
              data := fun _ _ _ => .vfloat 2 })]

/-- A zarr group for my_xarr_to_zarr with stored times 0 and 10 and no
attributes. -/
def exGroupC10 : GroupState := { arrs := [("time", exTimeArrC2)], attrs := [] }

/-- A small 2 by 2 ragged grid with one NaN position (0, 1). -/
def exNanGrid : Nat → Nat → Option ℚ :=
  fun i j => if i = 0 ∧ j = 1 then none else some 3

/-- The attribute dict one converted multibeam file contributes: an
installation record (raw file name f, no survey identifier, remainder r)
and the two sonar serial numbers. -/
def exInstallBatch (f r : String) : List (String × AttV) :=
  [("install_0", .ainstall (some f) none r),
   ("system_serial_number", .anum 40111),
   ("secondary_system_serial_number", .anum 40111)]

/-- The merged attribute dict of the three-batch install scenario with
remainders A, A, B. -/
def exCombinedAAB : List (String × AttV) :=
  [("install_0", .astr "B"),
   ("system_serial_number", .anum 40111),
   ("secondary_system_serial_number", .anum 40111),
   ("multibeam_files", .astrlist ["l1.all", "l2.all", "l3.all"])]

/-! Helper lemmas about the association-list store. -/

theorem lookupN_mapVals {α : Type} (F : String → α → α) (g : List (String × α))
    (x : String) : lookupN (mapVals F g) x = (lookupN g x).map (F x) := by
  induction g with
  | nil => rfl
  | cons p rest ih =>
    obtain ⟨k, a⟩ := p
    by_cases h : k = x
    · subst h
      simp [mapVals, lookupN]
    · simpa [mapVals, lookupN, h] using ih

theorem lookupN_setEntry_ne {α : Type} (g : List (String × α)) (k x : String)
    (a : α) (h : x ≠ k) : lookupN (setEntry g k a) x = lookupN g x := by
  rw [setEntry, lookupN_mapVals]
  cases lookupN g x <;> simp [h]

theorem lookupN_setEntry_eq {α : Type} (g : List (String × α)) (k : String)
    (a b : α) (h : lookupN g k = some b) :
    lookupN (setEntry g k a) k = some a := by
  rw [setEntry, lookupN_mapVals, h]
  simp

theorem lookupN_stampDims_ne (g : Store) (var x : String) (dims : List String)
    (h : x ≠ var) : lookupN (stampDims g var dims) x = lookupN g x := by
  rw [stampDims, lookupN_mapVals]
  cases lookupN g x <;> simp [h]

theorem lookupN_append_single_ne {α : Type} (g : List (String × α))
    (w x : String) (a : α) (h : x ≠ w) :
    lookupN (g ++ [(w, a)]) x = lookupN g x := by
  induction g with
  | nil =>
    simp only [List.nil_append, lookupN]
    rw [if_neg fun hh => h hh.symm]
  | cons p rest ih =>
    by_cases hk : p.1 = x <;> simp [lookupN, hk, ih]

/-! C1.  After secondary-dim growth, new columns hold the fill value. -/

/-- C1: for every rootgroup and batch whose beam coordinate is longer than
the stored one (growth from B1 to B2 > B1), the expand-dim correction run
by the write (correct_rootgroup_dims / fix_rootgroup_expand_dim) leaves
every pre-existing array that carries the secondary dimension at size B1
with its second axis resized to B2 and every element of the new columns
[B1..B2) equal to that array's dtype-specific no-data value (NaN / 999 /
empty string). -/
theorem fix_rootgroup_expand_dim_backfills
    (g : Store) (b : Batch) (ba a : ZArr) (bv : BVar) (var : String)
    (b1 b2 : Nat)
    (hba : lookupN g expandDim = some ba) (hbashape : ba.shape = [b1])
    (hbv : lookupN b expandDim = some bv) (hbvshape : bv.shape.headD 0 = b2)
    (hlt : b1 < b2)
    (ha : lookupN g var = some a) (hne : var ≠ expandDim)
    (hrank : 2 ≤ a.shape.length) (hcol : a.shape.getD 1 0 = b1) :
    ∃ a2, lookupN (correctRootgroupDims g b) var = some a2 ∧
      a2.shape.getD 1 0 = b2 ∧
      ∀ i j k, b1 ≤ j → j < b2 → a2.data i j k = getArrNodatavalue a.dtype := by
  have hprod : ba.shape.prod = b1 := by simp [hbashape]
  have hchk : checkFixRootgroupExpandDim g b = true := by
    rw [checkFixRootgroupExpandDim, hba, hbv]
    simp only [hprod, hbvshape, decide_eq_true_eq]
    exact hlt
  have hcond : 2 ≤ a.shape.length ∧ a.shape.getD 1 0 = ba.shape.prod :=
    ⟨hrank, by rw [hcol, hprod]⟩
  simp only [correctRootgroupDims, hchk, if_true, fixRootgroupExpandDim, hba, hbv]
  rw [lookupN_mapVals, ha]
  simp only [Option.map_some', if_neg hne, if_pos hcond]
  refine ⟨_, rfl, ?_, ?_⟩
  · obtain ⟨s0, s1, rest, hsh⟩ : ∃ s0 s1 rest, a.shape = s0 :: s1 :: rest := by
      match hsh : a.shape, hrank with
      | s0 :: s1 :: rest, _ => exact ⟨s0, s1, rest, rfl⟩
    rw [hsh, hbvshape]
    rfl
  · intro i j k hj1 hj2
    simp only
    rw [if_neg]
    rw [hcol]
    omega

/-- C1 witness: the growth correction at a concrete store (beam length 2,
one (time, beam) float array) and a batch with beam length 4. -/
theorem fix_rootgroup_expand_dim_backfills_witness :
    lookupN exStoreC1 expandDim = some exBeamArr ∧ 2 < 4 ∧
    (∃ a2, lookupN (correctRootgroupDims exStoreC1 exBatchC1) "x" = some a2 ∧
      a2.shape.getD 1 0 = 4 ∧
      ∀ i j k, 2 ≤ j → j < 4 → a2.data i j k = getArrNodatavalue exBeamwiseArr.dtype) :=
  ⟨rfl, by omega,
    fix_rootgroup_expand_dim_backfills exStoreC1 exBatchC1 exBeamArr exBeamwiseArr
      _ "x" 2 4 rfl rfl rfl rfl (by omega) rfl (by decide) (by decide) rfl⟩

/-! C2.  The merge guard of write_to_zarr is a range check, not a
membership check. -/

/-- C2 counterexample: with stored times 0 and 10, a merge batch whose
first time value 5 equals no stored time is accepted by write_to_zarr (the
claim says the write must fail with an error in exactly this situation). -/
theorem write_to_zarr_merge_inner_time_accepted :
    (writeToZarr exStoreC2 exBatchC2 (0, 1) (some 2) true).isOk = true ∧
    ¬ ((5 : ℚ) ∈ arrVals exTimeArrC2) := by
  constructor
  · decide
  · decide

/-- C2 amended: a merge-mode write_to_zarr call fails at the merge check
exactly when the batch time range is not contained in the stored time
range (first batch time at least the stored minimum and last batch time at
most the stored maximum); when that containment fails, the error is raised
immediately, before any variable data is written. -/
theorem write_to_zarr_merge_range_check
    (g : Store) (batch : Batch) (dataloc : Nat × Nat) (finalsize : Option Nat)
    (ta : ZArr) (t0 tl mn mx : ℚ)
    (hta : lookupN g appendDim = some ta)
    (h0 : (batchVals batch appendDim).head? = some t0)
    (hl : (batchVals batch appendDim).getLast? = some tl)
    (hmn : npMinQ (arrVals ta) = some mn)
    (hmx : npMaxQ (arrVals ta) = some mx) :
    (checkMerge g (batchVals batch appendDim) = true ↔ (mn ≤ t0 ∧ tl ≤ mx)) ∧
    (¬ (mn ≤ t0 ∧ tl ≤ mx) →
      writeToZarr g batch dataloc finalsize true = .error mergeErrorMsg) := by
  have hcm : checkMerge g (batchVals batch appendDim) = decide (mn ≤ t0 ∧ tl ≤ mx) := by
    simp only [checkMerge, hta, h0, hl, hmn, hmx]
  constructor
  · rw [hcm]
    exact decide_eq_true_iff
  · intro h
    have hf : checkMerge g (batchVals batch appendDim) = false := by
      rw [hcm]
      exact decide_eq_false h
    rw [writeToZarr, hf]
    rfl

/-- C2 amended witness: a merge batch starting at time -1 against stored
times 0 and 10 violates the range containment and is rejected before any
write. -/
theorem write_to_zarr_merge_range_check_witness :
    writeToZarr exStoreC2 exBatchC2bad (0, 1) (some 2) true = .error mergeErrorMsg :=
  (write_to_zarr_merge_range_check exStoreC2 exBatchC2bad (0, 1) (some 2)
    exTimeArrC2 (-1) (-1) 0 10 rfl (by decide) (by decide) (by decide)
    (by decide)).2 (by norm_num)

/-! Helper lemmas about Except and the write step, shared by the write-path
claims. -/

theorem ok_bind {α β : Type} (a : α) (f : α → Except String β) :
    (Except.ok a >>= f) = f a := rfl

theorem error_bind {α β : Type} (e : String) (f : α → Except String β) :
    ((Except.error e : Except String α) >>= f) = .error e := rfl

theorem except_bind_ok {α β : Type} {x : Except String α}
    {f : α → Except String β} {c : β} (h : x >>= f = .ok c) :
    ∃ a, x = .ok a ∧ f a = .ok c := by
  cases x with
  | ok a => exact ⟨a, rfl, h⟩
  | error e => rw [error_bind] at h; cases h

theorem lookupN_stampDims_self (g : Store) (var : String) (dims : List String)
    (a : ZArr) (h : lookupN g var = some a) :
    lookupN (stampDims g var dims) var = some { a with dimNames := dims } := by
  rw [stampDims, lookupN_mapVals, h]
  simp

theorem head?_set_one {α : Type} (l : List α) (x : α) :
    (l.set 1 x).head? = l.head? := by
  cases l with
  | nil => rfl
  | cons y ys => cases ys <;> rfl

theorem writeAdjustMaxBeams_head {g : Store} {ss shp2 : List (Option Nat)}
    (h : writeAdjustMaxBeams g ss = .ok shp2) : shp2.head? = ss.head? := by
  rw [writeAdjustMaxBeams] at h
  split at h
  · cases hb : lookupN g "beam" with
    | none => rw [hb] at h; cases h
    | some ba =>
      rw [hb] at h
      cases h
      exact head?_set_one ss _
  · cases h
    rfl

theorem allSomeShape_head {sl : List (Option Nat)} {nl : List Nat} {x : Nat}
    (h : allSomeShape sl = .ok nl) (hh : sl.head? = some (some x)) :
    nl.headD 0 = x := by
  cases sl with
  | nil => cases hh
  | cons o rest =>
    cases o with
    | none => rw [allSomeShape] at h; cases h
    | some y =>
      have hxy : y = x := by
        simpa using hh
      rw [allSomeShape] at h
      rcases except_bind_ok h with ⟨r, _, hr⟩
      cases hr
      simpa using hxy

theorem resizeInStore_ok {g : Store} {var : String} {shpN : List Nat}
    {g2 : Store} (h : resizeInStore g var shpN = .ok g2) :
    ∃ a, lookupN g var = some a ∧ g2 = setEntry g var (resizeArr a shpN) := by
  rw [resizeInStore] at h
  cases hl : lookupN g var with
  | none => rw [hl] at h; cases h
  | some a =>
    rw [hl] at h
    cases h
    exact ⟨a, rfl, rfl⟩

theorem writeSlices_ok {g : Store} {var : String} {slices : List (Nat × Nat)}
    {src : Nat → Nat → Nat → Val} {g2 : Store}
    (h : writeSlices g var slices src = .ok g2) :
    ∃ a, lookupN g var = some a ∧ g2 = setEntry g var (writeRegion a slices src) := by
  cases hl : lookupN g var with
  | none =>
    rw [writeSlices, hl] at h
    exact Except.noConfusion h
  | some a =>
    rw [writeSlices, hl] at h
    simp only at h
    by_cases hbnd : slicesInBounds slices a.shape = true
    · rw [if_pos hbnd] at h
      cases h
      exact ⟨a, rfl, rfl⟩
    · rw [if_neg hbnd] at h
      exact Except.noConfusion h

theorem writeExistingRootgroup_lookup_ne {g : Store} {dl : Nat × Nat}
    {var : String} {v : BVar} {tl : Nat} {ta : Option Nat}
    {ss : Option (List (Option Nat))} {g2 : Store} {x : String}
    (h : writeExistingRootgroup g dl var v tl ta ss = .ok g2) (hx : x ≠ var) :
    lookupN g2 x = lookupN g x := by
  simp only [writeExistingRootgroup] at h
  rcases except_bind_ok h with ⟨gmid, h1, h2⟩
  obtain ⟨a1, _, rfl⟩ := writeSlices_ok h2
  rw [lookupN_setEntry_ne _ _ _ _ hx]
  cases ss with
  | none =>
    simp only at h1
    cases h1
    rfl
  | some shp =>
    simp only at h1
    by_cases htx : var = "tx"
    · rw [if_neg (fun hc => hc htx)] at h1
      cases h1
      rfl
    · rw [if_pos htx] at h1
      rcases except_bind_ok h1 with ⟨shp2, _, h1b⟩
      rcases except_bind_ok h1b with ⟨shpN, _, h1c⟩
      obtain ⟨a0, _, rfl⟩ := resizeInStore_ok h1c
      exact lookupN_setEntry_ne _ _ _ _ hx

theorem writeNewDatasetRootgroup_lookup_ne {g : Store} {var : String}
    {v : BVar} {ss : List (Option Nat)} {g2 : Store} {x : String}
    (h : writeNewDatasetRootgroup g var v ss = .ok g2) (hx : x ≠ var) :
    lookupN g2 x = lookupN g x := by
  rw [writeNewDatasetRootgroup] at h
  rcases except_bind_ok h with ⟨shpN, _, h2⟩
  cases h2
  exact lookupN_append_single_ne _ _ _ _ hx

theorem writeVarStep_lookup_ne {names : List String} {dl : Nat × Nat}
    {F : Option Nat} {m : Bool} {g g2 : Store} {w : String} {v : BVar}
    {x : String} (h : writeVarStep names dl F m g (w, v) = .ok g2)
    (hx : x ≠ w) : lookupN g2 x = lookupN g x := by
  rw [writeVarStep] at h
  split at h
  · cases h; rfl
  · split at h
    · cases h; rfl
    · rcases except_bind_ok h with ⟨tts, _, h2⟩
      rcases except_bind_ok h2 with ⟨g2', h3, h4⟩
      cases h4
      rw [lookupN_stampDims_ne _ _ _ _ hx]
      split at h3
      · split at h3
        · exact writeExistingRootgroup_lookup_ne h3 hx
        · exact writeExistingRootgroup_lookup_ne h3 hx
      · exact writeNewDatasetRootgroup_lookup_ne h3 hx

theorem foldlM_writeVarStep_lookup_ne {names : List String} {dl : Nat × Nat}
    {F : Option Nat} {m : Bool} (l : List (String × BVar)) (g g2 : Store)
    (x : String) (h : l.foldlM (writeVarStep names dl F m) g = .ok g2)
    (hx : ∀ p ∈ l, x ≠ p.1) : lookupN g2 x = lookupN g x := by
  induction l generalizing g with
  | nil =>
    cases h
    rfl
  | cons p rest ih =>
    rw [List.foldlM_cons] at h
    rcases except_bind_ok h with ⟨gA, h1, h2⟩
    obtain ⟨w, v⟩ := p
    rw [ih gA h2 (fun q hq => hx q (List.mem_cons_of_mem _ hq)),
      writeVarStep_lookup_ne h1 (hx (w, v) (List.mem_cons_self _ _))]

theorem writeVarStep_ok_shape {names : List String} {dl : Nat × Nat} {F : Nat}
    {g g2 : Store} {var : String} {v : BVar}
    (h : writeVarStep names dl (some F) false g (var, v) = .ok g2)
    (hin : var ∈ names)
    (hvar : ¬(var = "beam" ∨ var = "xyz" ∨ var = "tx"))
    (hdims : v.dims.head? = some appendDim)
    (hshape : v.shape ≠ []) :
    ∃ a, lookupN g2 var = some a ∧ a.shape.headD 0 = F := by
  obtain ⟨drest, hd⟩ : ∃ drest, v.dims = appendDim :: drest := by
    cases hvd : v.dims with
    | nil => rw [hvd] at hdims; cases hdims
    | cons d0 drest =>
      rw [hvd] at hdims
      simp only [List.head?_cons, Option.some.injEq] at hdims
      exact ⟨drest, by rw [hdims]⟩
  obtain ⟨s0, srest, hs⟩ : ∃ s0 srest, v.shape = s0 :: srest := by
    cases hvs : v.shape with
    | nil => exact absurd hvs hshape
    | cons s0 srest => exact ⟨s0, srest, rfl⟩
  have hnbx : ¬(var = "beam" ∨ var = "xyz") := by
    intro hc
    rcases hc with hc | hc
    · exact hvar (Or.inl hc)
    · exact hvar (Or.inr (Or.inl hc))
  have htx : var ≠ "tx" := fun hc => hvar (Or.inr (Or.inr hc))
  have hmem : appendDim ∈ v.dims := by rw [hd]; exact List.mem_cons_self _ _
  have htax : firstIdx v.dims appendDim = 0 := by rw [hd]; simp [firstIdx]
  have hdet : writeDetermineShape var v (some F) =
      .ok (some 0, v.shape.getD 0 0,
        v.shape.map fun x => if firstIdx v.shape x = 0 then some F else some x) := by
    rw [writeDetermineShape, if_neg hnbx, if_pos hmem, htax]
  rw [writeVarStep] at h
  rw [if_neg (by simp)] at h
  rw [if_neg (by intro hc; exact hnbx hc.1)] at h
  rw [hdet, ok_bind] at h
  simp only [hin, if_pos, Option.isSome_some, if_true] at h
  rcases except_bind_ok h with ⟨g2', hE, hstamp⟩
  simp only [writeExistingRootgroup] at hE
  rcases except_bind_ok hE with ⟨gmid, h1, h2⟩
  rw [if_pos htx] at h1
  rcases except_bind_ok h1 with ⟨shp2, hadj, h1b⟩
  rcases except_bind_ok h1b with ⟨shpN, hall, h1c⟩
  obtain ⟨a0, ha0, rfl⟩ := resizeInStore_ok h1c
  have hssh : (v.shape.map fun x =>
      if firstIdx v.shape x = 0 then some F else some x).head? = some (some F) := by
    rw [hs]
    simp [firstIdx]
  have hshpN : shpN.headD 0 = F :=
    allSomeShape_head hall (by rw [writeAdjustMaxBeams_head hadj, hssh])
  obtain ⟨a1, ha1, rfl⟩ := writeSlices_ok h2
  have ha1v : a1 = resizeArr a0 shpN := by
    rw [lookupN_setEntry_eq _ _ _ _ ha0] at ha1
    exact (Option.some.injEq _ _ ▸ ha1).symm
  cases hstamp
  refine ⟨_, lookupN_stampDims_self _ _ _ _
    (lookupN_setEntry_eq _ _ _ _ (lookupN_setEntry_eq _ _ _ _ ha0)), ?_⟩
  rw [ha1v]
  exact hshpN

/-! C3.  The final_size pre-resize only reaches arrays named in the
batch. -/

/-- C3 counterexample: a store holding arrays time and x (both of length
2); the first task writes a batch naming only time, at rows 2..3 with
final_size 3.  The write succeeds and resizes time to length 3, but the
pre-existing array x keeps length 2 — the claim says every pre-existing
array is resized to final_size. -/
theorem write_to_zarr_final_size_skips_unnamed :
    (writeToZarr exStoreC3 exBatchC3 (2, 3) (some 3) false).isOk = true ∧
    ((writeToZarr exStoreC3 exBatchC3 (2, 3) (some 3) false).toOption.bind
      fun g => (lookupN g "x").map ZArr.shape) = some [2] ∧
    ((writeToZarr exStoreC3 exBatchC3 (2, 3) (some 3) false).toOption.bind
      fun g => (lookupN g "time").map ZArr.shape) = some [3] :=
  ⟨by decide, by decide, by decide⟩

/-- C3 amended: on a successful non-merge first task carrying final_size,
the append-dim pre-resize to final_size applies exactly to the pre-existing
arrays that are named in the batch (and are none of beam, xyz, tx): each of
those ends with append-dim length final_size, while every array not named
in the batch is left exactly as the expand-dim correction left it — in
particular its append-dim length is not resized. -/
theorem write_to_zarr_resize_batch_vars_only
    (g : Store) (batch : Batch) (dl : Nat × Nat) (F : Nat) (g2 : Store)
    (hok : writeToZarr g batch dl (some F) false = .ok g2)
    (hnodup : (batch.map Prod.fst).Nodup) :
    (∀ var v, (var, v) ∈ batch →
      var ∈ (correctRootgroupDims g batch).map Prod.fst →
      ¬(var = "beam" ∨ var = "xyz" ∨ var = "tx") →
      v.dims.head? = some appendDim → v.shape ≠ [] →
      ∃ a, lookupN g2 var = some a ∧ a.shape.headD 0 = F) ∧
    (∀ var, (∀ p ∈ batch, var ≠ p.1) →
      lookupN g2 var = lookupN (correctRootgroupDims g batch) var) := by
  rw [writeToZarr] at hok
  rw [if_neg (by simp)] at hok
  simp only [Option.isSome_some, if_true] at hok
  constructor
  · intro var v hmem hin hvar hdims hshape
    obtain ⟨l1, l2, hsplit⟩ := List.append_of_mem hmem
    rw [hsplit] at hok hin
    rw [List.foldlM_append] at hok
    rcases except_bind_ok hok with ⟨gA, h1, h2⟩
    simp only [List.foldlM_cons] at h2
    rcases except_bind_ok h2 with ⟨gB, hstep, hrest⟩
    obtain ⟨a, ha, hsh⟩ := writeVarStep_ok_shape hstep hin hvar hdims hshape
    refine ⟨a, ?_, hsh⟩
    rw [foldlM_writeVarStep_lookup_ne l2 gB g2 var hrest ?_, ha]
    intro p hp hvp
    rw [hsplit, List.map_append, List.map_cons] at hnodup
    have h2n := (List.nodup_append.mp hnodup).2.1
    have hvm : var ∈ List.map Prod.fst l2 := by
      rw [hvp]
      exact List.mem_map_of_mem _ hp
    exact (List.nodup_cons.mp h2n).1 hvm
  · intro var hvar
    exact foldlM_writeVarStep_lookup_ne batch _ _ var hok hvar
/-- C3 amended witness: at the concrete store (time, x) and the batch
naming only time with final_size 3, the time array ends with append length
3 and the array x is exactly what the expand correction (here the
identity) left: unresized. -/
theorem write_to_zarr_resize_batch_vars_only_witness :
    ((writeToZarr exStoreC3 exBatchC3 (2, 3) (some 3) false).toOption.bind
      fun g => (lookupN g "time").map fun a => a.shape.headD 0) = some 3 := by
  cases hw : writeToZarr exStoreC3 exBatchC3 (2, 3) (some 3) false with
  | error e =>
    have hok : (writeToZarr exStoreC3 exBatchC3 (2, 3) (some 3) false).isOk = true := by
      decide
    rw [hw] at hok
    cases hok
  | ok G =>
    obtain ⟨a, ha, hsh⟩ :=
      (write_to_zarr_resize_batch_vars_only exStoreC3 exBatchC3 (2, 3) 3 G hw
        (by decide)).1 "time" _ (List.mem_cons_self _ _) (by decide) (by decide)
        rfl (by decide)
    simp only [Except.toOption, Option.some_bind, ha, Option.map_some']
    rw [hsh]

/-! C10.  A failed merge validation of my_xarr_to_zarr returns None and
leaves the group untouched. -/

/-- C10: whenever both the dataset and the store carry a time array and the
first dataset time is not among the stored times, my_xarr_to_zarr with
merge set returns None without raising, and the group — its arrays and its
attributes — is returned exactly as it was: no variable is created or
written and no attribute is merged. -/
theorem my_xarr_to_zarr_merge_validation_atomic
    (g : GroupState) (b : Batch) (attrs : Option (List (String × AttV)))
    (dl : Nat × Nat) (F : Option Nat) (tv : BVar) (ta : ZArr) (t0 : ℚ)
    (hbt : lookupN b "time" = some tv)
    (hta : lookupN g.arrs "time" = some ta)
    (h0 : (batchVals b "time").head? = some t0)
    (hnot : t0 ∉ arrVals ta) :
    myXarrToZarr g b attrs dl F true = .ok (none, g) := by
  have hv : validateMerge b g.arrs = false := by
    simp only [validateMerge, hbt, hta, h0, Option.isSome_some, Bool.and_self,
      if_true]
    exact decide_eq_false hnot
  rw [myXarrToZarr, hv]
  rfl

/-- C10 witness: stored times 0 and 10, a merge dataset with first time 5
(not stored): the call returns None with the group unchanged. -/
theorem my_xarr_to_zarr_merge_validation_atomic_witness :
    myXarrToZarr exGroupC10 exBatchC2 none (0, 1) (some 2) true =
      .ok (none, exGroupC10) :=
  my_xarr_to_zarr_merge_validation_atomic exGroupC10 exBatchC2 none (0, 1)
    (some 2) _ exTimeArrC2 5 rfl rfl rfl (by decide)

/-! C9.  Round trip of stack_nan_array and reform_nan_array. -/

theorem row_values_eq (A : Nat → Nat → Option ℚ) (i : Nat) (l : List Nat) :
    l.filterMap (fun j => A i j) =
    (l.filterMap fun j => if (A i j).isSome then some (i, j) else none).map
      fun p => (A p.1 p.2).getD 0 := by
  induction l with
  | nil => rfl
  | cons j rest ih =>
    cases hA : A i j with
    | none => simp [List.filterMap_cons, hA, ih]
    | some q => simp [List.filterMap_cons, hA, ih]

theorem stackValues_eq (n m : Nat) (A : Nat → Nat → Option ℚ) :
    stackValues n m A = (stackIndices n m A).map fun p => (A p.1 p.2).getD 0 := by
  rw [stackValues, stackIndices, List.map_flatten, List.map_map]
  congr 1
  apply List.map_congr_left
  intro i _
  exact row_values_eq A i (List.range m)

theorem zip_map_self {α β : Type} (l : List α) (f : α → β) :
    l.zip (l.map f) = l.map fun a => (a, f a) := by
  induction l with
  | nil => rfl
  | cons a rest ih => simp [ih]

theorem mem_stackIndices (n m : Nat) (A : Nat → Nat → Option ℚ) (i j : Nat) :
    (i, j) ∈ stackIndices n m A ↔ i < n ∧ j < m ∧ (A i j).isSome := by
  simp only [stackIndices, List.mem_flatten, List.mem_map, List.mem_filterMap,
    List.mem_range]
  constructor
  · rintro ⟨l, ⟨i2, hi2, rfl⟩, hmem⟩
    rcases List.mem_filterMap.mp hmem with ⟨j2, hj2, hf⟩
    by_cases hs : (A i2 j2).isSome
    · rw [if_pos hs] at hf
      obtain ⟨rfl, rfl⟩ : i2 = i ∧ j2 = j := by
        constructor <;> cases hf <;> rfl
      exact ⟨hi2, List.mem_range.mp hj2, hs⟩
    · rw [if_neg hs] at hf
      cases hf
  · rintro ⟨hi, hj, hs⟩
    refine ⟨_, ⟨i, hi, rfl⟩, List.mem_filterMap.mpr ⟨j, List.mem_range.mpr hj, ?_⟩⟩
    rw [if_pos hs]

theorem stackIndices_nodup (n m : Nat) (A : Nat → Nat → Option ℚ) :
    (stackIndices n m A).Nodup := by
  rw [stackIndices, List.nodup_flatten]
  constructor
  · intro l hl
    rcases List.mem_map.mp hl with ⟨i, _, rfl⟩
    refine (List.nodup_range m).filterMap ?_
    intro a a' b hfa hfa'
    by_cases hs : (A i a).isSome
    · rw [if_pos hs] at hfa
      by_cases hs' : (A i a').isSome
      · rw [if_pos hs'] at hfa'
        cases hfa
        cases hfa'
        rfl
      · rw [if_neg hs'] at hfa'
        cases hfa'
    · rw [if_neg hs] at hfa
      cases hfa
  · rw [List.pairwise_map]
    apply List.Pairwise.imp ?_ (List.pairwise_lt_range n)
    intro i i' hlt
    intro p hp hp'
    rcases List.mem_filterMap.mp hp with ⟨a, _, hfa⟩
    rcases List.mem_filterMap.mp hp' with ⟨a', _, hfa'⟩
    by_cases hs : (A i a).isSome
    · rw [if_pos hs] at hfa
      by_cases hs' : (A i' a').isSome
      · rw [if_pos hs'] at hfa'
        cases hfa
        cases hfa'
        exact absurd rfl (Nat.ne_of_lt hlt)
      · rw [if_neg hs'] at hfa'
        cases hfa'
    · rw [if_neg hs] at hfa
      cases hfa

theorem scatter_not_mem (ps : List ((Nat × Nat) × ℚ))
    (base : Nat → Nat → Option ℚ) (i j : Nat) (h : (i, j) ∉ ps.map Prod.fst) :
    ps.foldl (fun f pv => fun i2 j2 => if (i2, j2) = pv.1 then some pv.2 else f i2 j2)
      base i j = base i j := by
  induction ps generalizing base with
  | nil => rfl
  | cons pv rest ih =>
    rw [List.foldl_cons, ih _ fun hc => h (List.mem_cons_of_mem _ hc)]
    rw [if_neg fun hc => h (by rw [List.map_cons, ← hc]; exact List.mem_cons_self _ _)]

theorem scatter_mem (ps : List ((Nat × Nat) × ℚ)) (base : Nat → Nat → Option ℚ)
    (i j : Nat) (q : ℚ) (hnd : (ps.map Prod.fst).Nodup) (hmem : ((i, j), q) ∈ ps) :
    ps.foldl (fun f pv => fun i2 j2 => if (i2, j2) = pv.1 then some pv.2 else f i2 j2)
      base i j = some q := by
  induction ps generalizing base with
  | nil => cases hmem
  | cons pv rest ih =>
    rw [List.map_cons, List.nodup_cons] at hnd
    rcases List.mem_cons.mp hmem with heq | hrest
    · subst heq
      rw [List.foldl_cons, scatter_not_mem _ _ _ _ hnd.1]
      simp
    · rw [List.foldl_cons]
      exact ih _ hnd.2 hrest

/-- C9: for every (time, beam) grid with NaN holes, scattering the stacked
non-NaN values (stack_nan_array) back at the recorded original indices into
a NaN-filled array of the original shape (reform_nan_array) reconstructs
the grid pointwise: non-NaN positions regain their value and NaN positions
stay NaN. -/
theorem stack_reform_roundtrip (n m : Nat) (A : Nat → Nat → Option ℚ)
    (i j : Nat) (hi : i < n) (hj : j < m) :
    reformNanArray (stackValues n m A) (stackIndices n m A) i j = A i j := by
  rw [reformNanArray, stackValues_eq, zip_map_self]
  cases hA : A i j with
  | some q =>
    have hmem : ((i, j), q) ∈ (stackIndices n m A).map
        fun p => (p, (A p.1 p.2).getD 0) :=
      List.mem_map.mpr ⟨(i, j),
        (mem_stackIndices n m A i j).mpr ⟨hi, hj, by rw [hA]; rfl⟩, by simp [hA]⟩
    have hfst : ((stackIndices n m A).map fun p => (p, (A p.1 p.2).getD 0)).map
        Prod.fst = stackIndices n m A := by
      rw [List.map_map]
      rw [show (Prod.fst ∘ fun p : Nat × Nat => (p, (A p.1 p.2).getD 0)) =
        fun p => p from rfl]
      exact List.map_id' _
    have hnd : (((stackIndices n m A).map fun p => (p, (A p.1 p.2).getD 0)).map
        Prod.fst).Nodup := by
      rw [hfst]
      exact stackIndices_nodup n m A
    exact scatter_mem _ _ _ _ _ hnd hmem
  | none =>
    have hnot : (i, j) ∉ ((stackIndices n m A).map
        fun p => (p, (A p.1 p.2).getD 0)).map Prod.fst := by
      intro hc
      rcases List.mem_map.mp hc with ⟨pq, hpq, hfst⟩
      rcases List.mem_map.mp hpq with ⟨p, hp, rfl⟩
      have hpij : p = (i, j) := hfst
      subst hpij
      have := ((mem_stackIndices n m A i j).mp hp).2.2
      rw [hA] at this
      cases this
    exact scatter_not_mem _ _ _ _ hnot

/-- C9 witness: the round trip at a concrete 2 by 2 grid with a NaN at
position (0, 1), evaluated at that position. -/
theorem stack_reform_roundtrip_witness :
    reformNanArray (stackValues 2 2 exNanGrid) (stackIndices 2 2 exNanGrid) 0 1 =
      exNanGrid 0 1 :=
  stack_reform_roundtrip 2 2 exNanGrid 0 1 (by decide) (by decide)

/-! C7.  The leading-gap branch of compare_and_find_gaps calls list.insert
with one argument and raises TypeError. -/

/-- C7 (code bug): with reference times 0, 5, 10 and candidate times 3, 4
(max_gap 1), the candidate minimum 3 exceeds the reference minimum plus
max_gap, so the source reaches datagap_times.insert([...]) — a TypeError,
since list.insert takes an index and a value.  The claim (and the comment
in the source) expects the leading gap to be prepended without raising. -/
theorem compare_gaps_leading_gap_type_error :
    compareAndFindGaps [0, 5, 10] [3, 4] 1 =
      .error "TypeError: insert expected 2 arguments, got 1" := by
  norm_num [compareAndFindGaps, gapsOf, xrMin, xrMax, npMinQ, npMaxQ, minQ2, maxQ2,
    List.range_succ]

/-! C8.  Candidate gaps fully inside a reference gap are kept, not
dropped. -/

/-- C8 (code bug): reference times 0, 1/2, 10, 21/2 give the single
reference gap (1/2, 10); candidate times 0, 3, 5, 21/2 give candidate gaps
(0,3), (3,5) and (5, 21/2).  The result keeps (3, 5) although it lies fully
inside the reference gap (1/2, 10): the continue of the trim loop only
skips the trim checks, and the gap is appended anyway, against the claim
and the source's own comment. -/
theorem compare_gaps_contained_gap_kept :
    compareAndFindGaps [0, 1/2, 10, 21/2] [0, 3, 5, 21/2] 1 =
      .ok [(0, 1/2), (3, 5), (10, 21/2)] ∧
    (1/2 : ℚ) ≤ 3 ∧ (5 : ℚ) ≤ 10 := by
  refine ⟨?_, by norm_num, by norm_num⟩
  have hg1 : gapsOf [0, 1/2, 10, 21/2] 1 = [(1/2, 10)] := by
    norm_num [gapsOf, List.range_succ, List.filterMap_cons, List.filterMap_append,
      List.getD, List.getElem?_cons_zero, List.getElem?_cons_succ]
  have hg2 : gapsOf [0, 3, 5, 21/2] 1 = [(0, 3), (3, 5), (5, 21/2)] := by
    norm_num [gapsOf, List.range_succ, List.filterMap_cons, List.filterMap_append,
      List.getD, List.getElem?_cons_zero, List.getElem?_cons_succ]
  norm_num [compareAndFindGaps, hg1, hg2, xrMin, xrMax, npMinQ, npMaxQ, minQ2, maxQ2,
    splitUntilStable, findGapsSplit, trimGap, List.find?]

/-! Lemmas about the binary search, the floored modulus and the unwrap. -/

theorem bsLoop_le (a : List ℚ) (v : ℚ) (lo hi : Nat) (h : lo ≤ hi) :
    lo ≤ bsLoop a v lo hi ∧ bsLoop a v lo hi ≤ hi := by
  induction lo, hi using bsLoop.induct a v with
  | case1 lo hi hlt mid hcond ih =>
    have hm : mid = (lo + hi) / 2 := rfl
    rw [bsLoop, dif_pos hlt, if_pos (hm ▸ hcond)]
    have := ih (by omega)
    rw [← hm] at *
    omega
  | case2 lo hi hlt mid hcond ih =>
    have hm : mid = (lo + hi) / 2 := rfl
    rw [bsLoop, dif_pos hlt, if_neg (hm ▸ hcond)]
    have := ih (by omega)
    rw [← hm] at *
    omega
  | case3 lo hi hnlt =>
    rw [bsLoop, dif_neg hnlt]
    omega

theorem bsLoop_all_lt (a : List ℚ) (v : ℚ) (lo hi : Nat) (h : lo ≤ hi)
    (hall : ∀ i, lo ≤ i → i < hi → a.getD i 0 < v) : bsLoop a v lo hi = hi := by
  induction lo, hi using bsLoop.induct a v with
  | case1 lo hi hlt mid hcond ih =>
    have hm : mid = (lo + hi) / 2 := rfl
    rw [bsLoop, dif_pos hlt, if_pos (hm ▸ hcond)]
    rw [← hm]
    exact ih (by omega) (fun i h1 h2 => hall i (by omega) h2)
  | case2 lo hi hlt mid hcond ih =>
    have hm : mid = (lo + hi) / 2 := rfl
    exact absurd (hall mid (by omega) (by omega)) hcond
  | case3 lo hi hnlt =>
    rw [bsLoop, dif_neg hnlt]
    omega

theorem npSearchsorted_le (a : List ℚ) (v : ℚ) : npSearchsorted a v ≤ a.length :=
  (bsLoop_le a v 0 a.length (Nat.zero_le _)).2

theorem getD_mem_of_lt (l : List ℚ) (i : Nat) (h : i < l.length) :
    l.getD i 0 ∈ l := by
  rw [List.getD_eq_getElem l 0 h]
  exact List.getElem_mem h

theorem npSearchsorted_all_lt (a : List ℚ) (v : ℚ) (h : ∀ x ∈ a, x < v) :
    npSearchsorted a v = a.length :=
  bsLoop_all_lt a v 0 a.length (Nat.zero_le _)
    (fun i _ hi => h _ (getD_mem_of_lt a i hi))

theorem sorted_le_getLast : ∀ (l : List ℚ), l.Sorted (· ≤ ·) →
    ∀ x ∈ l, ∀ m, l.getLast? = some m → x ≤ m := by
  intro l
  induction l with
  | nil => intro _ x hx; cases hx
  | cons a t ih =>
    intro hs x hx m hm
    cases t with
    | nil =>
      rcases hx with _ | h
      · cases hm
        exact le_refl _
      · cases ‹x ∈ ([] : List ℚ)›
    | cons b t2 =>
      rw [List.getLast?_cons_cons] at hm
      have hmm : m ∈ b :: t2 := by
        rcases List.mem_getLast?_eq_getLast (Option.mem_def.mpr hm) with ⟨hne, heq⟩
        rw [heq]
        exact List.getLast_mem hne
      rcases hx with _ | h
      · exact List.rel_of_sorted_cons hs m hmm
      · exact ih hs.of_cons x ‹x ∈ b :: t2› m hm

theorem qmod_nonneg (a : ℚ) {b : ℚ} (hb : 0 < b) : 0 ≤ qmod a b := by
  rw [qmod]
  have h1 : (⌊a / b⌋ : ℚ) ≤ a / b := Int.floor_le _
  have h2 : b * (⌊a / b⌋ : ℚ) ≤ b * (a / b) := by
    exact mul_le_mul_of_nonneg_left h1 hb.le
  rw [mul_div_cancel₀ _ (ne_of_gt hb)] at h2
  linarith

theorem qmod_lt (a : ℚ) {b : ℚ} (hb : 0 < b) : qmod a b < b := by
  rw [qmod]
  have h1 : a / b < (⌊a / b⌋ : ℚ) + 1 := Int.lt_floor_add_one _
  have h2 : b * (a / b) < b * ((⌊a / b⌋ : ℚ) + 1) := by
    exact mul_lt_mul_of_pos_left h1 hb
  rw [mul_div_cancel₀ _ (ne_of_gt hb)] at h2
  nlinarith

theorem qmod_eq (a b r : ℚ) (k : ℤ) (hb : 0 < b) (h : a = b * k + r)
    (h0 : 0 ≤ r) (h1 : r < b) : qmod a b = r := by
  have hf : ⌊a / b⌋ = k := by
    rw [h]
    have : (b * (k : ℚ) + r) / b = (k : ℚ) + r / b := by
      field_simp
      ring
    rw [this, Int.floor_eq_iff]
    constructor
    · have : 0 ≤ r / b := div_nonneg h0 hb.le
      linarith
    · have : r / b < 1 := (div_lt_one hb).mpr h1
      linarith
  rw [qmod, hf, h]
  ring

theorem unwrapGo_length (prev acc : ℚ) (l : List ℚ) :
    (unwrapGo prev acc l).length = l.length := by
  induction l generalizing prev acc with
  | nil => rfl
  | cons x xs ih => simp [unwrapGo, ih]

theorem unwrapDeg_length (l : List ℚ) : (unwrapDeg l).length = l.length := by
  cases l with
  | nil => rfl
  | cons x xs => simp [unwrapDeg, unwrapGo_length]

theorem wrapCorrect_small (d : ℚ) (h : |d| < 180) : wrapCorrect d = 0 := by
  simp only [wrapCorrect]
  rw [if_pos h]

/-- C5 counterexample: a heading series in two chunks of two samples, with
times 0, 1, 10, 11 and values 0, 10, 0, 10, interpolated at the single
target 5.  The target falls between the chunks, the chunk end times place
it in the second chunk, and the second chunk extrapolates down its own
slope to -50, reported as 310.  The spec formula, mod-360 of the linear
interpolation of the globally unwrapped sequence, gives 50/9 instead. -/
theorem interp_across_chunks_heading_seam_mismatch :
    interpAcrossChunks "heading" [0, 1, 10, 11] [0, 10, 0, 10] [2, 2] [5] =
      .ok [310] ∧
    qmod (lininterp [0, 1, 10, 11] (unwrapDeg [0, 10, 0, 10]) 5) 360 = 50 / 9 ∧
    ¬((310 : ℚ) = 50 / 9) := by
  have hw10 : wrapCorrect (10 : ℚ) = 0 := wrapCorrect_small _ (by rw [abs_lt]; norm_num)
  have hwm10 : wrapCorrect (-10 : ℚ) = 0 := wrapCorrect_small _ (by rw [abs_lt]; norm_num)
  have hu : unwrapDeg [(0 : ℚ), 10, 0, 10] = [0, 10, 0, 10] := by
    norm_num [unwrapDeg, unwrapGo, hw10, hwm10]
  have hs1 : npSearchsorted [(5 : ℚ)] 1 = 0 := by
    rw [npSearchsorted, bsLoop]
    norm_num [List.getD]
    rw [bsLoop]
    norm_num
  have hs2 : npSearchsorted [(5 : ℚ)] 6 = 1 := by
    rw [npSearchsorted, bsLoop]
    norm_num [List.getD]
    rw [bsLoop]
    norm_num
  have hss1 : npSearchsorted [(10 : ℚ), 11] 5 = 0 := by
    rw [npSearchsorted, bsLoop]
    norm_num [List.getD]
    rw [bsLoop]
    norm_num [List.getD]
    rw [bsLoop]
    norm_num
  have hl1 : lininterp [(10 : ℚ), 11] [(0 : ℚ), 10] 5 = -50 := by
    simp only [lininterp, hss1]
    norm_num [List.getD]
  have hq310 : qmod (-50 : ℚ) 360 = 310 :=
    qmod_eq _ _ _ (-1) (by norm_num) (by norm_num) (by norm_num) (by norm_num)
  have hss2 : npSearchsorted [(0 : ℚ), 1, 10, 11] 5 = 2 := by
    rw [npSearchsorted, bsLoop]
    norm_num [List.getD]
    rw [bsLoop]
    norm_num [List.getD]
    rw [bsLoop]
    norm_num
  have hl2 : lininterp [(0 : ℚ), 1, 10, 11] [(0 : ℚ), 10, 0, 10] 5 = 50 / 9 := by
    simp only [lininterp, hss2]
    norm_num [List.getD]
  have hq59 : qmod (50 / 9 : ℚ) 360 = 50 / 9 :=
    qmod_eq _ _ _ 0 (by norm_num) (by norm_num) (by norm_num) (by norm_num)
  refine ⟨?_, ?_, by norm_num⟩
  · norm_num [interpAcrossChunks, cumsums, npSplitDrop, pySlice, List.getD,
      hu, hs1, hs2, hl1, hq310]
  · rw [hu, hl2]
    exact hq59

/-- C5 (amended): for an unchunked (single chunk) heading series of at
least two samples (scipy interp1d raises on shorter inputs) whose values
align with its times, and a nonempty sorted target vector,
interp_across_chunks returns exactly the pointwise mod-360 of the linear
interpolation of the unwrapped value sequence, and every such output lies
in [0, 360).  The counterexample shows the chunked case escapes this. -/
theorem interp_across_chunks_heading_single_chunk
    (stimes svals newTimes : List ℚ)
    (hlen : svals.length = stimes.length)
    (_hsam : 2 ≤ stimes.length)
    (hne : newTimes ≠ [])
    (hsort : newTimes.Sorted (· ≤ ·)) :
    interpAcrossChunks "heading" stimes svals [stimes.length] newTimes =
      .ok (newTimes.map fun t => qmod (lininterp stimes (unwrapDeg svals) t) 360) ∧
    ∀ q ∈ newTimes.map fun t => qmod (lininterp stimes (unwrapDeg svals) t) 360,
      0 ≤ q ∧ q < 360 := by
  refine ⟨?_, ?_⟩
  · obtain ⟨lastT, hlast⟩ : ∃ m, newTimes.getLast? = some m := by
      cases hl : newTimes.getLast? with
      | none => exact absurd (List.getLast?_eq_none_iff.mp hl) hne
      | some m => exact ⟨m, rfl⟩
    have hidx : npSearchsorted newTimes (lastT + 1) = newTimes.length :=
      npSearchsorted_all_lt _ _ fun x hx =>
        lt_of_le_of_lt (sorted_le_getLast _ hsort x hx lastT hlast) (by linarith)
    have hne2 : newTimes.isEmpty = false := by
      cases newTimes with
      | nil => exact absurd rfl hne
      | cons a as => rfl
    have hfull : pySlice newTimes 0 newTimes.length = newTimes := by
      simp [pySlice]
    have hfulls : pySlice stimes 0 stimes.length = stimes := by
      simp [pySlice]
    have hfullv : pySlice (unwrapDeg svals) 0 stimes.length = unwrapDeg svals := by
      rw [← hlen, ← unwrapDeg_length svals]
      simp [pySlice]
    simp only [interpAcrossChunks, hlast, cumsums, Nat.zero_add, List.map_cons,
      List.map_nil, List.dropLast_single, List.nil_append, npSplitDrop,
      List.foldl_cons, List.foldl_nil, hidx, hfull, List.zip_cons_cons,
      List.zip_nil_right, List.zip_nil_left, List.filter_cons, List.filter_nil,
      hne2, Bool.not_false, if_pos rfl, hfulls, hfullv, List.flatten_cons,
      List.flatten_nil, List.append_nil, if_true, List.length_map, List.map_map,
      Function.comp_def]
  · intro q hq
    rcases List.mem_map.mp hq with ⟨t, _, rfl⟩
    exact ⟨qmod_nonneg _ (by norm_num), qmod_lt _ (by norm_num)⟩

/-- C5 amended witness: the spec example S5 as a single chunk; heading
350, 355, 0, 5, 10 at times 0..4, targets 1.5 and 2.5, giving 357.5 and
2.5. -/
theorem interp_across_chunks_heading_single_chunk_witness :
    interpAcrossChunks "heading" [0, 1, 2, 3, 4] [350, 355, 0, 5, 10] [5]
      [3 / 2, 5 / 2] = .ok [715 / 2, 5 / 2] := by
  have hq185 : qmod ((-355 : ℚ) + 180) 360 = 185 :=
    qmod_eq _ _ _ (-1) (by norm_num) (by norm_num) (by norm_num) (by norm_num)
  have hw5 : wrapCorrect (5 : ℚ) = 0 := wrapCorrect_small _ (by rw [abs_lt]; norm_num)
  have hw355 : wrapCorrect (-355 : ℚ) = 360 := by
    simp only [wrapCorrect]
    rw [if_neg (by rw [abs_of_nonpos (by norm_num : (-355 : ℚ) ≤ 0)]; norm_num), hq185]
    norm_num
  have hu2 : unwrapDeg [(350 : ℚ), 355, 0, 5, 10] = [350, 355, 360, 365, 370] := by
    norm_num [unwrapDeg, unwrapGo, hw5, hw355]
  have hss1 : npSearchsorted [(0 : ℚ), 1, 2, 3, 4] (3 / 2) = 2 := by
    rw [npSearchsorted, bsLoop]
    norm_num [List.getD]
    rw [bsLoop]
    norm_num [List.getD]
    rw [bsLoop]
    norm_num
  have hss2 : npSearchsorted [(0 : ℚ), 1, 2, 3, 4] (5 / 2) = 3 := by
    rw [npSearchsorted, bsLoop]
    norm_num [List.getD]
    rw [bsLoop]
    norm_num [List.getD]
    rw [bsLoop]
    norm_num [List.getD]
    rw [bsLoop]
    norm_num
  have hli1 : lininterp [(0 : ℚ), 1, 2, 3, 4] [(350 : ℚ), 355, 360, 365, 370]
      (3 / 2) = 715 / 2 := by
    simp only [lininterp, hss1]
    norm_num [List.getD]
  have hli2 : lininterp [(0 : ℚ), 1, 2, 3, 4] [(350 : ℚ), 355, 360, 365, 370]
      (5 / 2) = 725 / 2 := by
    simp only [lininterp, hss2]
    norm_num [List.getD]
  have hqa : qmod (715 / 2 : ℚ) 360 = 715 / 2 :=
    qmod_eq _ _ _ 0 (by norm_num) (by norm_num) (by norm_num) (by norm_num)
  have hqb : qmod (725 / 2 : ℚ) 360 = 5 / 2 :=
    qmod_eq _ _ _ 1 (by norm_num) (by norm_num) (by norm_num) (by norm_num)
  exact ((interp_across_chunks_heading_single_chunk [0, 1, 2, 3, 4]
      [350, 355, 0, 5, 10] [3 / 2, 5 / 2] rfl (by norm_num) (List.cons_ne_nil _ _)
      (by norm_num [List.sorted_cons])).1).trans
    (by norm_num [hu2, hli1, hli2, hqa, hqb])

/-- C6 counterexample: the decreasing-then-increasing target vector 3, 1, 9
against the sorted single-chunk series with times and values 0, 2, 4, 6, 8,
10 interpolates without any error to 3, 1, 9, although adjacent targets
decrease (1 < 3): interp_across_chunks never checks the target order. -/
theorem interp_across_chunks_unsorted_targets_ok :
    interpAcrossChunks "x" [0, 2, 4, 6, 8, 10] [0, 2, 4, 6, 8, 10] [6] [3, 1, 9] =
      .ok [3, 1, 9] ∧ (1 : ℚ) < 3 := by
  have hsa : npSearchsorted [(3 : ℚ), 1, 9] 10 = 3 := by
    rw [npSearchsorted, bsLoop]
    norm_num [List.getD]
    rw [bsLoop]
    norm_num [List.getD]
    rw [bsLoop]
    norm_num
  have hss1 : npSearchsorted [(0 : ℚ), 2, 4, 6, 8, 10] 3 = 2 := by
    rw [npSearchsorted, bsLoop]
    norm_num [List.getD]
    rw [bsLoop]
    norm_num [List.getD]
    rw [bsLoop]
    norm_num [List.getD]
    rw [bsLoop]
    norm_num
  have hss2 : npSearchsorted [(0 : ℚ), 2, 4, 6, 8, 10] 1 = 1 := by
    rw [npSearchsorted, bsLoop]
    norm_num [List.getD]
    rw [bsLoop]
    norm_num [List.getD]
    rw [bsLoop]
    norm_num [List.getD]
    rw [bsLoop]
    norm_num
  have hss3 : npSearchsorted [(0 : ℚ), 2, 4, 6, 8, 10] 9 = 5 := by
    rw [npSearchsorted, bsLoop]
    norm_num [List.getD]
    rw [bsLoop]
    norm_num [List.getD]
    rw [bsLoop]
    norm_num [List.getD]
    rw [bsLoop]
    norm_num
  have hl1 : lininterp [(0 : ℚ), 2, 4, 6, 8, 10] [(0 : ℚ), 2, 4, 6, 8, 10] 3 = 3 := by
    simp only [lininterp, hss1]
    norm_num [List.getD]
  have hl2 : lininterp [(0 : ℚ), 2, 4, 6, 8, 10] [(0 : ℚ), 2, 4, 6, 8, 10] 1 = 1 := by
    simp only [lininterp, hss2]
    norm_num [List.getD]
  have hl3 : lininterp [(0 : ℚ), 2, 4, 6, 8, 10] [(0 : ℚ), 2, 4, 6, 8, 10] 9 = 9 := by
    simp only [lininterp, hss3]
    norm_num [List.getD]
  have hxh : ¬(("x" : String) = "heading") := by decide
  refine ⟨?_, by norm_num⟩
  norm_num [interpAcrossChunks, cumsums, npSplitDrop, pySlice, List.getD,
    hxh, hsa, hl1, hl2, hl3]

/-- C6 (amended): for a single-chunk series of at least two aligned
samples (scipy interp1d raises on shorter or mismatched inputs) and a
nonempty target vector with last element lastT, interp_across_chunks
fails if and only if the final length assertion fails, that is, iff the
searchsorted position of lastT + 1 differs from the target count; the
target order itself is never examined. -/
theorem interp_across_chunks_single_chunk_error_iff
    (stimes svals newTimes : List ℚ) (lastT : ℚ)
    (_hlen : svals.length = stimes.length)
    (_hsam : 2 ≤ stimes.length)
    (hlast : newTimes.getLast? = some lastT) :
    (∃ e, interpAcrossChunks "x" stimes svals [stimes.length] newTimes = .error e) ↔
      npSearchsorted newTimes (lastT + 1) ≠ newTimes.length := by
  have hne : newTimes ≠ [] := by
    intro h
    rw [h] at hlast
    exact Option.noConfusion hlast
  have hpos : 0 < newTimes.length := List.length_pos.mpr hne
  have hk : npSearchsorted newTimes (lastT + 1) ≤ newTimes.length :=
    npSearchsorted_le _ _
  have hsl : pySlice newTimes 0 (npSearchsorted newTimes (lastT + 1)) =
      newTimes.take (npSearchsorted newTimes (lastT + 1)) := by
    simp [pySlice]
  have htke : newTimes.isEmpty = false := by
    cases newTimes with
    | nil => exact absurd rfl hne
    | cons a as => rfl
  by_cases heq : npSearchsorted newTimes (lastT + 1) = newTimes.length
  · have hsl2 : pySlice newTimes 0 newTimes.length = newTimes := by
      simp [pySlice]
    simp [interpAcrossChunks, hlast, cumsums, npSplitDrop, heq, hsl2, htke]
  · by_cases hz : npSearchsorted newTimes (lastT + 1) = 0
    · have hne0 : ¬((0 : Nat) = newTimes.length) := by omega
      have hsl0 : pySlice newTimes 0 0 = ([] : List ℚ) := by
        simp [pySlice]
      simp [interpAcrossChunks, hlast, cumsums, npSplitDrop, hz, hsl0, hne0, heq]
    · have htke2 : (newTimes.take (npSearchsorted newTimes (lastT + 1))).isEmpty
          = false := by
        rw [List.isEmpty_eq_false_iff_exists_mem]
        refine ⟨newTimes.getD 0 0, ?_⟩
        rw [List.getD_eq_getElem _ _ hpos]
        exact List.mem_take_iff_getElem.mpr ⟨0, by omega, rfl⟩
      have hmin : min (npSearchsorted newTimes (lastT + 1)) newTimes.length =
          npSearchsorted newTimes (lastT + 1) := Nat.min_eq_left hk
      simp [interpAcrossChunks, hlast, cumsums, npSplitDrop, hsl, htke2, hmin, heq]

/-- C6 amended witness: targets 0, 5, 3 against the single-chunk series
with times 0, 2 end in the length-assertion error, because only one target
lies below the last target plus one. -/
theorem interp_across_chunks_single_chunk_error_iff_witness :
    ∃ e, interpAcrossChunks "x" [0, 2] [0, 2] [2] [0, 5, 3] = .error e := by
  have hs : npSearchsorted [(0 : ℚ), 5, 3] 4 = 1 := by
    rw [npSearchsorted, bsLoop]
    norm_num [List.getD]
    rw [bsLoop]
    norm_num [List.getD]
    rw [bsLoop]
    norm_num
  exact (interp_across_chunks_single_chunk_error_iff [0, 2] [0, 2] [0, 5, 3] 3
    rfl (by norm_num) rfl).mpr (by norm_num [hs])

/-! Evaluation lemmas for the attribute merge. -/

theorem npUniqueStr_l123 :
    npUniqueStr ["l1.all", "l2.all", "l3.all"] = ["l1.all", "l2.all", "l3.all"] := by
  rw [npUniqueStr, List.Sorted.insertionSort_eq, List.dedup_eq_self.mpr]
  · decide
  · refine List.sorted_cons.mpr ⟨?_, List.sorted_cons.mpr ⟨?_, List.sorted_singleton _⟩⟩
    · intro b hb
      rcases List.mem_cons.mp hb with rfl | hb2
      · exact String.le_iff_toList_le.mpr (by decide)
      · rcases List.mem_singleton.mp hb2 with rfl
        exact String.le_iff_toList_le.mpr (by decide)
    · intro b hb
      rcases List.mem_singleton.mp hb with rfl
      exact String.le_iff_toList_le.mpr (by decide)

theorem combineInstall_eval (r1 r2 r3 : String) (h1 : r1 ≠ "")
    (hsc : (r2 = r1 ∧ r3 ≠ r1) ∨ (r3 = r1 ∧ r2 ≠ r1) ∨ (r2 = r3 ∧ r2 ≠ r1)) :
    combineXrAttributes
        [exInstallBatch "l1.all" r1, exInstallBatch "l2.all" r2,
         exInstallBatch "l3.all" r3] =
      .ok [("install_0", .astr (if r3 = r1 then r2 else r3)),
           ("system_serial_number", .anum 40111),
           ("secondary_system_serial_number", .anum 40111),
           ("multibeam_files", .astrlist ["l1.all", "l2.all", "l3.all"])] := by
  have ht1 : "install_0".take 7 = "install" := rfl
  have ht2 : "system_serial_number".take 7 = "system_" := rfl
  have ht3 : "secondary_system_serial_number".take 7 = "seconda" := rfl
  have ht4 : "system_serial_number".take 3 = "sys" := rfl
  have ht5 : "secondary_system_serial_number".take 3 = "sec" := rfl
  rcases hsc with ⟨ha, hb⟩ | ⟨ha, hb⟩ | ⟨ha, hb⟩
  · have hb3 : ¬(r3 = r1) := hb
    simp [combineXrAttributes, exInstallBatch, combineStep, combineInit, dictSet,
      ok_bind, List.foldlM_cons, List.foldlM_nil, lookupN, setEntry, mapVals,
      attrTolist, castFold, npUniqueStr_l123, ht1, ht2, ht3, ht4, ht5, h1, ha, hb3]
  · have hb2 : ¬(r2 = r1) := hb
    simp [combineXrAttributes, exInstallBatch, combineStep, combineInit, dictSet,
      ok_bind, List.foldlM_cons, List.foldlM_nil, lookupN, setEntry, mapVals,
      attrTolist, castFold, npUniqueStr_l123, ht1, ht2, ht3, ht4, ht5, h1, ha, hb2]
  · have hb2 : ¬(r2 = r1) := hb
    have hb3 : ¬(r3 = r1) := fun h => hb (ha.trans h)
    have ha3 : r3 = r2 := ha.symm
    simp [combineXrAttributes, exInstallBatch, combineStep, combineInit, dictSet,
      ok_bind, List.foldlM_cons, List.foldlM_nil, lookupN, setEntry, mapVals,
      attrTolist, castFold, npUniqueStr_l123, ht1, ht2, ht3, ht4, ht5, h1, hb2,
      hb3, ha3]

/-- C4 counterexample: merging the attribute batches of three files whose
install_0 remainders are A, A, B produces a dict whose install-prefixed
keys number exactly one, not two: the key install_0 is overwritten in
place (python dict assignment), never suffixed. -/
theorem combine_attributes_single_install_key :
    combineXrAttributes
        [exInstallBatch "l1.all" "A", exInstallBatch "l2.all" "A",
         exInstallBatch "l3.all" "B"] = .ok exCombinedAAB ∧
    (exCombinedAAB.filter fun kv => kv.1.take 7 = "install").length = 1 := by
  have hba : ¬(("B" : String) = "A") := by decide
  constructor
  · exact (combineInstall_eval "A" "A" "B" (by decide)
      (Or.inl ⟨rfl, by decide⟩)).trans (by norm_num [exCombinedAAB, hba])
  · decide

/-- C4 (amended): for three install batches with nonempty remainders of
which exactly two are equal, the merged dict holds exactly one install key,
install_0, whose value is the third remainder unless that equals the
first (buffered) one, in which case it is the second; multibeam_files is
the sorted unique list of the raw file names; the serial numbers collapse
to their common scalar. -/
theorem combine_attributes_install_merge (r1 r2 r3 : String) (h1 : r1 ≠ "")
    (hsc : (r2 = r1 ∧ r3 ≠ r1) ∨ (r3 = r1 ∧ r2 ≠ r1) ∨ (r2 = r3 ∧ r2 ≠ r1)) :
    combineXrAttributes
        [exInstallBatch "l1.all" r1, exInstallBatch "l2.all" r2,
         exInstallBatch "l3.all" r3] =
      .ok [("install_0", .astr (if r3 = r1 then r2 else r3)),
           ("system_serial_number", .anum 40111),
           ("secondary_system_serial_number", .anum 40111),
           ("multibeam_files", .astrlist ["l1.all", "l2.all", "l3.all"])] :=
  combineInstall_eval r1 r2 r3 h1 hsc

/-- C4 amended witness: remainders A, B, A (first and third equal) retain
the single install key with value B and the three files. -/
theorem combine_attributes_install_merge_witness :
    combineXrAttributes
        [exInstallBatch "l1.all" "A", exInstallBatch "l2.all" "B",
         exInstallBatch "l3.all" "A"] =
      .ok [("install_0", .astr "B"),
           ("system_serial_number", .anum 40111),
           ("secondary_system_serial_number", .anum 40111),
           ("multibeam_files", .astrlist ["l1.all", "l2.all", "l3.all"])] := by
  have h := combine_attributes_install_merge "A" "B" "A" (by decide)
    (Or.inr (Or.inl ⟨rfl, by decide⟩))
  exact h.trans (by norm_num)

end Kluster
